import Mathlib

/-!
Verification of the HardwareHouse data-aggregation, probe-execution and export
pipeline (src/hardwarehouse.py), as a shallow embedding in Lean 4.

The Python program manipulates heterogeneous nested dictionaries, lists and
scalars (the Fact Record of the spec).  We embed that value space as the
inductive type `Record` below.  Platform queries (WMI, psutil, platform,
tempfile, numpy, file I/O) are external collaborators; they are modelled by an
explicit environment `Env` whose fields carry either the query result or the
exception message the call raised (`Except String _`).  Floating-point values
that the program merely passes through from the platform (rounded GB figures,
percentages, formatted elapsed times) are modelled as opaque scalar values or
as the already-formatted digit strings, since the program never branches on
them.
-/

namespace HardwareHouse

/-- A Python scalar as used by the program: string, integer or boolean.
Floats appear in the program only as opaque platform-provided values and are
represented by the platform layer as already-formatted strings or rounded
integers. -/
inductive Value where
  | str (s : String)
  | int (n : Int)
  | bool (b : Bool)
deriving DecidableEq

/-- The Fact Record: Python nested dict / list / scalar values.
Objects keep insertion order, as Python dicts do. -/
inductive Record where
  | leaf (v : Value)
  | obj (fields : List (String × Record))
  | list (items : List Record)

mutual

/-- Boolean equality on records. -/
def beqR : Record → Record → Bool
  | .leaf v1, .leaf v2 => v1 == v2
  | .obj ps1, .obj ps2 => beqFs ps1 ps2
  | .list xs1, .list xs2 => beqIs xs1 xs2
  | _, _ => false

/-- Boolean equality on field lists. -/
def beqFs : List (String × Record) → List (String × Record) → Bool
  | [], [] => true
  | (k1, r1) :: ps1, (k2, r2) :: ps2 => k1 == k2 && beqR r1 r2 && beqFs ps1 ps2
  | _, _ => false

/-- Boolean equality on record lists. -/
def beqIs : List Record → List Record → Bool
  | [], [] => true
  | x :: xs, y :: ys => beqR x y && beqIs xs ys
  | _, _ => false

end

mutual

theorem beqR_iff : ∀ a b : Record, beqR a b = true ↔ a = b
  | .leaf v1, .leaf v2 => by simp [beqR, beq_iff_eq]
  | .leaf _, .obj _ => by simp [beqR]
  | .leaf _, .list _ => by simp [beqR]
  | .obj _, .leaf _ => by simp [beqR]
  | .obj ps1, .obj ps2 => by
      simpa [beqR] using beqFs_iff ps1 ps2
  | .obj _, .list _ => by simp [beqR]
  | .list _, .leaf _ => by simp [beqR]
  | .list _, .obj _ => by simp [beqR]
  | .list xs1, .list xs2 => by
      simpa [beqR] using beqIs_iff xs1 xs2

theorem beqFs_iff : ∀ a b : List (String × Record), beqFs a b = true ↔ a = b
  | [], [] => by simp [beqFs]
  | [], _ :: _ => by simp [beqFs]
  | _ :: _, [] => by simp [beqFs]
  | (k1, r1) :: ps1, (k2, r2) :: ps2 => by
      simp [beqFs, beq_iff_eq, beqR_iff r1 r2, beqFs_iff ps1 ps2, and_assoc]

theorem beqIs_iff : ∀ a b : List Record, beqIs a b = true ↔ a = b
  | [], [] => by simp [beqIs]
  | [], _ :: _ => by simp [beqIs]
  | _ :: _, [] => by simp [beqIs]
  | x :: xs, y :: ys => by
      simp [beqIs, beqR_iff x y, beqIs_iff xs ys]

end

instance : DecidableEq Record := fun a b =>
  decidable_of_iff (beqR a b = true) (beqR_iff a b)

mutual

/-- Node count of a record, used as a fuel bound for the JSON parser. -/
def sizeR : Record → Nat
  | .leaf _ => 1
  | .obj ps => 1 + sizeFs ps
  | .list xs => 1 + sizeIs xs

/-- Node count of an object field list. -/
def sizeFs : List (String × Record) → Nat
  | [] => 0
  | (_, r) :: ps => 1 + sizeR r + sizeFs ps

/-- Node count of a list of records. -/
def sizeIs : List Record → Nat
  | [] => 0
  | x :: xs => 1 + sizeR x + sizeIs xs

end

/-- Keys of an object field list are pairwise distinct (Python dicts cannot
hold duplicate keys, so every record the program builds satisfies this). -/
def nodupKeys : List (String × Record) → Bool
  | [] => true
  | (k, _) :: ps => !(ps.any (fun p => p.1 == k)) && nodupKeys ps

mutual

/-- Well-formedness of a record as a Python value: object keys are distinct
at every level. -/
def wfR : Record → Bool
  | .leaf _ => true
  | .obj ps => nodupKeys ps && wfFs ps
  | .list xs => wfIs xs

/-- Well-formedness of all field values. -/
def wfFs : List (String × Record) → Bool
  | [] => true
  | (_, r) :: ps => wfR r && wfFs ps

/-- Well-formedness of all list elements. -/
def wfIs : List Record → Bool
  | [] => true
  | x :: xs => wfR x && wfIs xs

end

/-!
### Python rendering of values

The CSV exporter hands raw Python values to `csv.writer.writerow`, which
renders each cell with `str(...)`, and the code interpolates list items with
f-strings (also `str(...)`).  `str` of a `str` is the string itself; `str` of
an `int` is its decimal numeral; `str` of a `bool` is `True` / `False`; `str`
of a `dict` or `list` is its `repr`.  The `repr` of a string prefers single
quotes and switches to double quotes when the string contains a single quote
but no double quote, escaping backslashes, the quote character and the common
control characters; other characters are rendered verbatim. -/

/-- One character of a Python string repr, under the chosen quote char. -/
def pyEscapeChar (q : Char) (c : Char) : List Char :=
  if c = '\\' then ['\\', '\\']
  else if c = q then ['\\', q]
  else if c = '\n' then ['\\', 'n']
  else if c = '\r' then ['\\', 'r']
  else if c = '\t' then ['\\', 't']
  else [c]

/-- Python repr of a string. -/
def pyReprStr (s : String) : String :=
  let q : Char := if s.data.contains '\x27' && !(s.data.contains '"') then '"' else '\x27'
  String.mk (q :: s.data.foldr (fun c acc => pyEscapeChar q c ++ acc) [q])

/-- Python str of a scalar. -/
def pyStrValue : Value → String
  | .str s => s
  | .int n => toString n
  | .bool true => "True"
  | .bool false => "False"

/-- Python repr of a scalar. -/
def pyReprValue : Value → String
  | .str s => pyReprStr s
  | .int n => toString n
  | .bool true => "True"
  | .bool false => "False"

mutual

/-- Python repr of a record (dicts and lists render their elements with
repr, comma-separated, inside braces / brackets). -/
def pyRepr : Record → String
  | .leaf v => pyReprValue v
  | .obj ps => "\x7b" ++ pyReprFs ps ++ "\x7d"
  | .list xs => "[" ++ pyReprIs xs ++ "]"

/-- Python repr of dict items, comma-separated. -/
def pyReprFs : List (String × Record) → String
  | [] => ""
  | [(k, r)] => pyReprStr k ++ ": " ++ pyRepr r
  | (k, r) :: p :: ps => pyReprStr k ++ ": " ++ pyRepr r ++ ", " ++ pyReprFs (p :: ps)

/-- Python repr of list items, comma-separated. -/
def pyReprIs : List Record → String
  | [] => ""
  | [x] => pyRepr x
  | x :: y :: xs => pyRepr x ++ ", " ++ pyReprIs (y :: xs)

end

/-- Python str of an arbitrary value: identity on strings, decimal on ints,
True/False on booleans, repr on dicts and lists. -/
def pyStr : Record → String
  | .leaf v => pyStrValue v
  | .obj ps => pyRepr (.obj ps)
  | .list xs => pyRepr (.list xs)

/-!
### The flat tabular (CSV) exporter

`export_csv` walks the dictionary with the inner function `write_dict`:
scalar-or-dict values produce one two-cell row `[prefix + key, str(value)]`;
list values produce a one-cell header row `[prefix + key]` followed, per
element, by a `"  Item i"` header and a recursive flattening with four more
spaces of prefix when the element is a dict, and by a single one-cell
`"  Item i: str(element)"` row otherwise.  We model the sequence of rows
handed to `csv.writer.writerow` (each row a list of cells). -/

mutual

/-- Rows emitted by the Python inner function `write_dict(d, prefix)`. -/
def write_dict : List (String × Record) → String → List (List String)
  | [], _ => []
  | (k, v) :: rest, pref =>
    (match v with
      | Record.list items => [pref ++ k] :: write_items items 1 pref
      | Record.obj ps => [[pref ++ k, pyStr (.obj ps)]]
      | Record.leaf s => [[pref ++ k, pyStr (.leaf s)]])
    ++ write_dict rest pref

/-- Rows emitted for the elements of a list value, counting from `i`
(Python: `enumerate(v, 1)`). -/
def write_items : List Record → Nat → String → List (List String)
  | [], _, _ => []
  | item :: rest, i, pref =>
    (match item with
      | Record.obj fields =>
          ["  Item " ++ toString i] :: write_dict fields (pref ++ "    ")
      | Record.leaf s => [["  Item " ++ toString i ++ ": " ++ pyStr (.leaf s)]]
      | Record.list xs => [["  Item " ++ toString i ++ ": " ++ pyStr (.list xs)]])
    ++ write_items rest (i + 1) pref

end

/-!
### The platform environment

Every platform query the program makes (WMI collections, psutil, platform,
subprocess, locale, numpy, tempfile and file I/O) is an external collaborator.
`Env` records, for each query, either its result or the message of the
exception it raised.  Raw query payloads carry the attribute values the
collectors read; values the program merely passes through (floats rounded by
the collector, formatted times) are carried as opaque scalars. -/

/-- Payload of platform.uname(). -/
structure Uname where
  system : String
  node : String
  release : String
  version : String
  machine : String
  processor : String

/-- Attributes of one Win32_Processor instance. -/
structure CpuRaw where
  name : String
  manufacturer : Value
  numberOfCores : Value
  numberOfLogicalProcessors : Value
  maxClockSpeed : Value
  currentClockSpeed : Value
  architecture : Value
  processorId : Value
  l2CacheSize : Value
  l3CacheSize : Value

/-- Attributes of one Win32_VideoController instance. -/
structure GpuRaw where
  name : Value
  driverVersion : Value
  videoProcessor : Value
  adapterRAM : Option Nat
  videoModeDescription : Value
  status : Value

/-- psutil virtual_memory / swap_memory figures, already divided by 1024^3
and rounded by the thin platform glue. -/
structure RamRaw where
  totalGB : Value
  availableGB : Value
  usedGB : Value
  percent : Value
  totalSwapGB : Value
  usedSwapGB : Value
  swapPercent : Value

/-- One psutil disk partition with its usage figures. -/
structure DiskRaw where
  device : Value
  mountpoint : Value
  fstype : Value
  totalGB : Value
  usedGB : Value
  freeGB : Value
  percent : Value

/-- One psutil network interface. -/
structure NetRaw where
  interfaceName : String
  isUp : Bool
  ips : List String
  macs : List String

/-- Attributes of one Win32_BIOS instance; `biosLanguage` is `none` when the
instance has no BIOSLanguage attribute (Python hasattr check). -/
structure BiosRaw where
  manufacturer : Value
  version : Value
  releaseDate : Value
  serialNumber : Value
  biosLanguage : Option Value

/-- Attributes of one Win32_BaseBoard instance; `model` is `none` when the
instance has no Model attribute. -/
structure BoardRaw where
  manufacturer : Value
  product : Value
  serialNumber : Value
  version : Value
  model : Option Value

/-- Attributes of one Win32_SoundDevice instance. -/
structure SoundRaw where
  name : Value
  status : Value
  manufacturer : Value

/-- psutil sensors_battery payload; `percentStr` is the formatted percent
figure interpolated by the f-string. -/
structure BatteryRaw where
  percentStr : String
  plugged : Bool
  secsLeft : Value

/-- Attributes of one Win32_DesktopMonitor instance. -/
structure MonitorRaw where
  name : Value
  screenHeight : Value
  screenWidth : Value
  status : Value

/-- Attributes of one Win32_Printer instance. -/
structure PrinterRaw where
  name : Value
  status : Value
  default : Value
  network : Value
  shared : Value

/-- Attributes of one Win32_Product instance. -/
structure SoftwareRaw where
  name : Value
  version : Value
  vendor : Value
  installDate : Value

/-- locale.getdefaultlocale() pair and time.tzname pair. -/
structure LocaleRaw where
  lang : Value
  enc : Value
  tz0 : String
  tz1 : String

/-- The environment of platform collaborators: one entry per underlying
query, giving its payload or the exception message it raised. -/
structure Env where
  uname : Except String Uname
  pythonVersion : Except String String
  win32Processor : Except String (List CpuRaw)
  win32VideoController : Except String (List GpuRaw)
  virtualMemory : Except String RamRaw
  diskPartitions : Except String (List DiskRaw)
  netIfAddrs : Except String (List NetRaw)
  win32BIOS : Except String (List BiosRaw)
  win32BaseBoard : Except String (List BoardRaw)
  win32SoundDevice : Except String (List SoundRaw)
  sensorsBattery : Except String (Option BatteryRaw)
  pids : Except String Nat
  bootTime : Except String String
  usbControllerDevice : Except String (List String)
  win32DesktopMonitor : Except String (List MonitorRaw)
  win32Printer : Except String (List PrinterRaw)
  win32Product : Except String (List SoftwareRaw)
  powercfgOutput : Except String String
  localeInfo : Except String LocaleRaw
  uptimeSeconds : Except String Nat
  -- baseline benchmark collaborators
  cpuLoops : Nat
  memAlloc : Except String Unit
  memElapsed : String
  tmpCreate : Except String Unit
  diskWrite : Except String Unit
  diskRead : Except String Unit
  diskRemove : Except String Unit
  diskElapsed : String
  -- extended benchmark collaborators
  extCpuLoops : Nat
  npSum : Except String Unit
  extMemElapsed : String
  extDiskOpen : Except String Unit
  extDiskWrite : Except String Unit
  extDiskRead : Except String Unit
  extDiskRemove : Except String Unit
  extDiskElapsed : String
  -- export file I/O collaborators
  jsonFileWrite : String → Except String Unit
  csvFileWrite : List (List String) → Except String Unit

/-!
### Collectors

Each Lean collector mirrors the corresponding Python function, including
which part of the body sits inside a try/except and the exact error message
format.  get_system_info is the one collector with no try/except: a failing
platform call there propagates (modelled by the `Except` result). -/

/-- get_system_info: builds the OS identity record.  The Python function has
no try/except, so a failure of platform.uname() or platform.python_version()
escapes to the caller. -/
def get_system_info (env : Env) : Except String Record := do
  let u ← env.uname
  let pv ← env.pythonVersion
  pure (.obj [
    ("System", .leaf (.str u.system)),
    ("Node Name", .leaf (.str u.node)),
    ("Release", .leaf (.str u.release)),
    ("Version", .leaf (.str u.version)),
    ("Machine", .leaf (.str u.machine)),
    ("Processor", .leaf (.str u.processor)),
    ("Python Version", .leaf (.str pv))])

/-- Python str.strip(): drop leading and trailing whitespace. -/
def pyStrip (s : String) : String := s.trim

/-- get_cpu_info: first Win32_Processor instance, or an Error field when the
query raises; an empty query result leaves the dict empty. -/
def get_cpu_info (env : Env) : Record :=
  match env.win32Processor with
  | .error e => .obj [("Error", .leaf (.str ("Failed to get CPU info: " ++ e)))]
  | .ok [] => .obj []
  | .ok (cpu :: _) => .obj [
      ("Name", .leaf (.str (pyStrip cpu.name))),
      ("Manufacturer", .leaf cpu.manufacturer),
      ("Cores (Physical)", .leaf cpu.numberOfCores),
      ("Threads (Logical)", .leaf cpu.numberOfLogicalProcessors),
      ("Max Clock Speed (MHz)", .leaf cpu.maxClockSpeed),
      ("Current Clock Speed (MHz)", .leaf cpu.currentClockSpeed),
      ("Architecture", .leaf cpu.architecture),
      ("Processor ID", .leaf cpu.processorId),
      ("L2 Cache Size (KB)", .leaf cpu.l2CacheSize),
      ("L3 Cache Size (KB)", .leaf cpu.l3CacheSize)]

/-- One GPU entry: AdapterRAM is divided down to MB when truthy, otherwise
rendered as the string Unknown. -/
def gpuEntry (g : GpuRaw) : Record :=
  .obj [
    ("Name", .leaf g.name),
    ("Driver Version", .leaf g.driverVersion),
    ("Video Processor", .leaf g.videoProcessor),
    ("RAM (MB)",
      match g.adapterRAM with
      | some n => if n = 0 then .leaf (.str "Unknown") else .leaf (.int (n / (1024 * 1024)))
      | none => .leaf (.str "Unknown")),
    ("Video Mode", .leaf g.videoModeDescription),
    ("Status", .leaf g.status)]

/-- get_gpu_info: list of GPU dicts, or a one-element list holding an Error
dict when the query raises. -/
def get_gpu_info (env : Env) : Record :=
  match env.win32VideoController with
  | .error e => .list [.obj [("Error", .leaf (.str ("Failed to get GPU info: " ++ e)))]]
  | .ok gs => .list (gs.map gpuEntry)

/-- get_ram_info. -/
def get_ram_info (env : Env) : Record :=
  match env.virtualMemory with
  | .error e => .obj [("Error", .leaf (.str ("Failed to get RAM info: " ++ e)))]
  | .ok vm => .obj [
      ("Total RAM (GB)", .leaf vm.totalGB),
      ("Available RAM (GB)", .leaf vm.availableGB),
      ("Used RAM (GB)", .leaf vm.usedGB),
      ("RAM Usage (%)", .leaf vm.percent),
      ("Total Swap (GB)", .leaf vm.totalSwapGB),
      ("Used Swap (GB)", .leaf vm.usedSwapGB),
      ("Swap Usage (%)", .leaf vm.swapPercent)]

/-- One disk partition entry. -/
def diskEntry (p : DiskRaw) : Record :=
  .obj [
    ("Device", .leaf p.device),
    ("Mountpoint", .leaf p.mountpoint),
    ("File System", .leaf p.fstype),
    ("Total Size (GB)", .leaf p.totalGB),
    ("Used (GB)", .leaf p.usedGB),
    ("Free (GB)", .leaf p.freeGB),
    ("Usage (%)", .leaf p.percent)]

/-- get_disk_info. -/
def get_disk_info (env : Env) : Record :=
  match env.diskPartitions with
  | .error e => .list [.obj [("Error", .leaf (.str ("Failed to get disk info: " ++ e)))]]
  | .ok ps => .list (ps.map diskEntry)

/-- One network adapter entry; empty address lists are replaced by a
one-element list holding the string None. -/
def netEntry (a : NetRaw) : Record :=
  .obj [
    ("Interface", .leaf (.str a.interfaceName)),
    ("Status", .leaf (.str (if a.isUp then "Up" else "Down"))),
    ("IPv4 Addresses",
      if a.ips.isEmpty then .list [.leaf (.str "None")]
      else .list (a.ips.map (fun s => .leaf (.str s)))),
    ("MAC Addresses",
      if a.macs.isEmpty then .list [.leaf (.str "None")]
      else .list (a.macs.map (fun s => .leaf (.str s))))]

/-- get_network_info. -/
def get_network_info (env : Env) : Record :=
  match env.netIfAddrs with
  | .error e => .list [.obj [("Error", .leaf (.str ("Failed to get network info: " ++ e)))]]
  | .ok as0 => .list (as0.map netEntry)

/-- get_bios_info: first Win32_BIOS instance. -/
def get_bios_info (env : Env) : Record :=
  match env.win32BIOS with
  | .error e => .obj [("Error", .leaf (.str ("Failed to get BIOS info: " ++ e)))]
  | .ok [] => .obj []
  | .ok (b :: _) => .obj [
      ("Manufacturer", .leaf b.manufacturer),
      ("Version", .leaf b.version),
      ("Release Date", .leaf b.releaseDate),
      ("Serial Number", .leaf b.serialNumber),
      ("BIOS Language", match b.biosLanguage with
        | some v => .leaf v
        | none => .leaf (.str "N/A"))]

/-- get_motherboard_info: first Win32_BaseBoard instance. -/
def get_motherboard_info (env : Env) : Record :=
  match env.win32BaseBoard with
  | .error e => .obj [("Error", .leaf (.str ("Failed to get Motherboard info: " ++ e)))]
  | .ok [] => .obj []
  | .ok (b :: _) => .obj [
      ("Manufacturer", .leaf b.manufacturer),
      ("Product", .leaf b.product),
      ("Serial Number", .leaf b.serialNumber),
      ("Version", .leaf b.version),
      ("Model", match b.model with
        | some v => .leaf v
        | none => .leaf (.str "N/A"))]

/-- get_sound_devices. -/
def get_sound_devices (env : Env) : Record :=
  match env.win32SoundDevice with
  | .error e => .list [.obj [("Error", .leaf (.str ("Failed to get Sound Devices info: " ++ e)))]]
  | .ok ds => .list (ds.map (fun d => .obj [
      ("Name", .leaf d.name),
      ("Status", .leaf d.status),
      ("Manufacturer", .leaf d.manufacturer)]))

/-- get_battery_info: a record for a present battery, an Info record when
sensors_battery returns None, an Error record when it raises. -/
def get_battery_info (env : Env) : Record :=
  match env.sensorsBattery with
  | .error e => .obj [("Error", .leaf (.str ("Failed to get battery info: " ++ e)))]
  | .ok none => .obj [("Info", .leaf (.str "No battery detected"))]
  | .ok (some b) => .obj [
      ("Percent", .leaf (.str (b.percentStr ++ "%"))),
      ("Plugged In", .leaf (.bool b.plugged)),
      ("Secs Left", .leaf b.secsLeft)]

/-- get_process_count. -/
def get_process_count (env : Env) : Record :=
  match env.pids with
  | .error e => .obj [("Error", .leaf (.str ("Failed to get process count: " ++ e)))]
  | .ok n => .obj [("Running Processes", .leaf (.int n))]

/-- get_boot_time: the platform layer supplies the already-formatted
timestamp string. -/
def get_boot_time (env : Env) : Record :=
  match env.bootTime with
  | .error e => .obj [("Error", .leaf (.str ("Failed to get boot time: " ++ e)))]
  | .ok s => .obj [("Boot Time", .leaf (.str s))]

/-- Python str.strip(x7b quote x7d) applied after splitting on the equals
sign: drop leading and trailing double-quote characters. -/
def pyStripQuotes (s : String) : String :=
  String.mk (((s.data.dropWhile (· == '"')).reverse.dropWhile (· == '"')).reverse)

/-- The loop body of get_usb_devices: falsy (empty) Dependent strings are
skipped; a Dependent with no equals sign makes the index access raise
IndexError, which the except clause turns into a trailing Error dict,
abandoning the rest of the loop. -/
def usbExtract : List String → List Record
  | [] => []
  | d :: ds =>
    if d = "" then usbExtract ds
    else match (d.splitOn "=").get? 1 with
      | some part => .leaf (.str (pyStripQuotes part)) :: usbExtract ds
      | none => [.obj [("Error", .leaf (.str "Failed to get USB devices: list index out of range"))]]

/-- get_usb_devices: a list of device-id strings (not dicts). -/
def get_usb_devices (env : Env) : Record :=
  match env.usbControllerDevice with
  | .error e => .list [.obj [("Error", .leaf (.str ("Failed to get USB devices: " ++ e)))]]
  | .ok ds => .list (usbExtract ds)

/-- get_display_monitors. -/
def get_display_monitors (env : Env) : Record :=
  match env.win32DesktopMonitor with
  | .error e => .list [.obj [("Error", .leaf (.str ("Failed to get monitor info: " ++ e)))]]
  | .ok ms => .list (ms.map (fun m => .obj [
      ("Name", .leaf m.name),
      ("Screen Height", .leaf m.screenHeight),
      ("Screen Width", .leaf m.screenWidth),
      ("Status", .leaf m.status)]))

/-- get_printers. -/
def get_printers (env : Env) : Record :=
  match env.win32Printer with
  | .error e => .list [.obj [("Error", .leaf (.str ("Failed to get printers info: " ++ e)))]]
  | .ok ps => .list (ps.map (fun p => .obj [
      ("Name", .leaf p.name),
      ("Status", .leaf p.status),
      ("Default", .leaf p.default),
      ("Network", .leaf p.network),
      ("Shared", .leaf p.shared)]))

/-- get_installed_software. -/
def get_installed_software (env : Env) : Record :=
  match env.win32Product with
  | .error e => .list [.obj [("Error", .leaf (.str ("Failed to get software list: " ++ e)))]]
  | .ok ss => .list (ss.map (fun s => .obj [
      ("Name", .leaf s.name),
      ("Version", .leaf s.version),
      ("Vendor", .leaf s.vendor),
      ("Install Date", .leaf s.installDate)]))

/-- get_power_plan: the stripped powercfg output line. -/
def get_power_plan (env : Env) : Record :=
  match env.powercfgOutput with
  | .error e => .obj [("Error", .leaf (.str ("Failed to get power plan: " ++ e)))]
  | .ok out => .obj [("Power Plan", .leaf (.str (pyStrip out)))]

/-- get_system_locale: the locale pair and timezone pair (Python tuples,
which serialize like lists). -/
def get_system_locale (env : Env) : Record :=
  match env.localeInfo with
  | .error e => .obj [("Error", .leaf (.str ("Failed to get locale info: " ++ e)))]
  | .ok l => .obj [
      ("Locale", .list [.leaf l.lang, .leaf l.enc]),
      ("Timezone", .list [.leaf (.str l.tz0), .leaf (.str l.tz1)])]

/-- get_system_uptime: the day/hour/minute/second split of the uptime in
whole seconds, as computed by the Python integer divisions. -/
def get_system_uptime (env : Env) : Record :=
  match env.uptimeSeconds with
  | .error e => .obj [("Error", .leaf (.str ("Failed to get uptime: " ++ e)))]
  | .ok u =>
    let days := u / 86400
    let hours := (u % 86400) / 3600
    let minutes := (u % 3600) / 60
    let seconds := u % 60
    .obj [("Uptime", .leaf (.str
      (toString days ++ "d " ++ toString hours ++ "h " ++
       toString minutes ++ "m " ++ toString seconds ++ "s")))]

/-!
### Python dict update

`results.update(d)` assigns each key/value of `d` into `results`: an existing
key keeps its position and gets the new value, a fresh key is appended. -/

/-- Assign one key/value into an ordered dict. -/
def insertPair : List (String × Record) → String → Record → List (String × Record)
  | [], k, v => [(k, v)]
  | (k2, v2) :: ps, k, v =>
    if k2 = k then (k2, v) :: ps else (k2, v2) :: insertPair ps k v

/-- dict.update: assign every pair of the second dict into the first. -/
def pyDictUpdate (d : List (String × Record)) (d2 : List (String × Record)) :
    List (String × Record) :=
  d2.foldl (fun acc p => insertPair acc p.1 p.2) d

/-- Fields of a record known to be an object (the benchmark probes all
return dicts). -/
def fieldsOf : Record → List (String × Record)
  | .obj ps => ps
  | _ => []

/-!
### Benchmark probes

The baseline CPU probe is a pure busy loop (its only collaborator is the
clock; the loop count is environment-supplied).  The baseline memory probe
has no try/except: a failing allocation or sum propagates.  The disk probes
create a temporary file and remove it with an explicit os.remove on the
success path only; the boolean threaded through them tracks whether the
temporary file exists on disk. -/

/-- cpu_benchmark(duration=3): counts loop iterations; cannot raise. -/
def cpu_benchmark (env : Env) (duration : Nat) : Record :=
  .obj [("CPU Benchmark (loops in " ++ toString duration ++ "s)", .leaf (.int env.cpuLoops))]

/-- memory_benchmark: allocates a 100 MB bytearray and sums it.  No
try/except: an allocation failure propagates to the caller. -/
def memory_benchmark (env : Env) : Except String Record :=
  match env.memAlloc with
  | .error e => .error e
  | .ok _ => .ok (.obj [("Memory Benchmark (sum bytes)",
      .leaf (.str (env.memElapsed ++ " seconds")))])

/-- disk_benchmark: NamedTemporaryFile(delete=False) creates the file, then
write, read and os.remove; every exception is caught and returned as a
Disk Benchmark Error field.  The returned boolean is whether the temporary
file still exists: os.remove runs only at the end of the try block, so any
failure after creation leaves the file behind. -/
def disk_benchmark (env : Env) (tmp : Bool) : Record × Bool :=
  match env.tmpCreate with
  | .error e => (.obj [("Disk Benchmark Error", .leaf (.str e))], tmp)
  | .ok _ =>
    match env.diskWrite with
    | .error e => (.obj [("Disk Benchmark Error", .leaf (.str e))], true)
    | .ok _ =>
      match env.diskRead with
      | .error e => (.obj [("Disk Benchmark Error", .leaf (.str e))], true)
      | .ok _ =>
        match env.diskRemove with
        | .error e => (.obj [("Disk Benchmark Error", .leaf (.str e))], true)
        | .ok _ => (.obj [("Disk Benchmark (write/read 10MB)",
            .leaf (.str (env.diskElapsed ++ " seconds")))], false)

/-- extended_cpu_benchmark(duration=5): a bounded busy loop of math
operations; cannot raise. -/
def extended_cpu_benchmark (env : Env) : Record :=
  .obj [("Extended CPU Benchmark loops", .leaf (.int env.extCpuLoops))]

/-- extended_memory_benchmark: numpy allocation and sum, fully inside a
try/except returning an Error field on failure. -/
def extended_memory_benchmark (env : Env) : Record :=
  match env.npSum with
  | .error e => .obj [("Error", .leaf (.str ("Failed extended memory benchmark: " ++ e)))]
  | .ok _ => .obj [("Extended Memory Benchmark (sum 10M floats)",
      .leaf (.str (env.extMemElapsed ++ " seconds")))]

/-- The write/read cycle loop of extended_disk_benchmark (for _ in range(3)).
tempfile.mktemp only reserves a name; the first successful open("wb")
creates the file (second component: does the file exist).  The environment
is deterministic, so every cycle sees the same collaborator outcomes. -/
def extDiskCycles (env : Env) (tmp : Bool) : Nat → Except String Unit × Bool
  | 0 => (.ok (), tmp)
  | n + 1 =>
    match env.extDiskOpen with
    | .error e => (.error e, tmp)
    | .ok _ =>
      match env.extDiskWrite with
      | .error e => (.error e, true)
      | .ok _ =>
        match env.extDiskRead with
        | .error e => (.error e, true)
        | .ok _ => extDiskCycles env true n

/-- extended_disk_benchmark: three write/read cycles then os.remove, all
inside a try/except whose handler returns an Error field; os.remove runs
only after the cycles succeed, so a failure mid-run leaves the file. -/
def extended_disk_benchmark (env : Env) (tmp : Bool) : Record × Bool :=
  match extDiskCycles env tmp 3 with
  | (.error e, t) => (.obj [("Error", .leaf (.str ("Failed extended disk benchmark: " ++ e)))], t)
  | (.ok _, t) =>
    match env.extDiskRemove with
    | .error e => (.obj [("Error", .leaf (.str ("Failed extended disk benchmark: " ++ e)))], t)
    | .ok _ => (.obj [("Extended Disk Benchmark (3x 50MB write/read)",
        .leaf (.str (env.extDiskElapsed ++ " seconds")))], false)

/-!
### Benchmark tier runs

`run_benchmarks` / `run_extended_benchmarks` are the worker-thread bodies:
straight-line code running the three probes in order and then assigning the
merged dict to `self.current_info` (the Session State) once.  We record the
run as a trace of events so the ordering and exactly-once-write claims are
statable: a probe contributes a start event when its call begins and an end
event when its result has been computed; the Session State assignment
contributes a write event.  An uncaught probe exception ends the thread,
truncating the trace. -/

/-- Observable events of one tier run. -/
inductive Event where
  | start (probe : String)
  | done (probe : String)
  | write (r : Record)
deriving DecidableEq

/-- Is this event the Session State write? -/
def isWriteEvent : Event → Bool
  | .write _ => true
  | _ => false

/-- Outcome of one tier run: its event trace, the value assigned to Session
State if the thread got that far, and whether a benchmark temporary file was
left on disk. -/
structure RunResult where
  trace : List Event
  written : Option Record
  tmpLeft : Bool
deriving DecidableEq

/-- The baseline worker: cpu_benchmark, memory_benchmark, disk_benchmark in
order, then one assignment of the merged dict.  memory_benchmark is
unguarded: its exception kills the thread before the disk probe starts and
before anything is written. -/
def run_benchmarks (env : Env) (tmp : Bool) : RunResult :=
  let r1 := cpu_benchmark env 3
  match memory_benchmark env with
  | .error _ =>
    { trace := [.start "cpu", .done "cpu", .start "memory"],
      written := none, tmpLeft := tmp }
  | .ok r2 =>
    let (r3, tmp2) := disk_benchmark env tmp
    let merged : Record :=
      .obj (pyDictUpdate (pyDictUpdate (fieldsOf r1) (fieldsOf r2)) (fieldsOf r3))
    { trace := [.start "cpu", .done "cpu", .start "memory", .done "memory",
                .start "disk", .done "disk", .write merged],
      written := some merged, tmpLeft := tmp2 }

/-- The extended worker: every probe guards its own failure, so the run
always completes and writes once. -/
def run_extended_benchmarks (env : Env) (tmp : Bool) : RunResult :=
  let r1 := extended_cpu_benchmark env
  let r2 := extended_memory_benchmark env
  let (r3, tmp2) := extended_disk_benchmark env tmp
  let merged : Record :=
    .obj (pyDictUpdate (pyDictUpdate (fieldsOf r1) (fieldsOf r2)) (fieldsOf r3))
  { trace := [.start "cpu", .done "cpu", .start "memory", .done "memory",
              .start "disk", .done "disk", .write merged],
    written := some merged, tmpLeft := tmp2 }

/-!
### The category dispatch (show_info)

`HardwareHouseApp.show_info` dispatches on the selected category through an
if/elif chain; the Benchmarks branch spawns the worker thread and returns
without producing a record; the final else produces the Unknown category
record.  `ExtendedHardwareHouseApp.show_info` checks its added categories
first and falls back to the parent chain. -/

/-- What a show_info call does synchronously: store a record, start a
benchmark tier, or let an exception escape. -/
inductive FetchOutcome where
  | stored (r : Record)
  | tierStarted
  | exc (e : String)
deriving DecidableEq

/-- The baseline category catalog (the dropdown options). -/
def category_options : List String :=
  ["System Info", "CPU Info", "GPU Info", "RAM Info", "Disk Info",
   "Network Info", "BIOS Info", "Motherboard Info", "Sound Devices",
   "Battery Info", "Process Count", "Boot Time", "Benchmarks"]

/-- The extended catalog: the baseline options plus the added ones. -/
def extended_category_options : List String :=
  category_options ++
  ["USB Devices", "Display Monitors", "Printers", "Installed Software",
   "Power Plan", "Locale & Timezone", "System Uptime", "Extended Benchmarks"]

/-- HardwareHouseApp.show_info. -/
def show_info_baseline (env : Env) (cat : String) : FetchOutcome :=
  if cat = "System Info" then
    match get_system_info env with
    | .error e => .exc e
    | .ok r => .stored r
  else if cat = "CPU Info" then .stored (get_cpu_info env)
  else if cat = "GPU Info" then .stored (.obj [("GPUs", get_gpu_info env)])
  else if cat = "RAM Info" then .stored (get_ram_info env)
  else if cat = "Disk Info" then .stored (.obj [("Disks", get_disk_info env)])
  else if cat = "Network Info" then .stored (.obj [("Network Adapters", get_network_info env)])
  else if cat = "BIOS Info" then .stored (get_bios_info env)
  else if cat = "Motherboard Info" then .stored (get_motherboard_info env)
  else if cat = "Sound Devices" then .stored (.obj [("Sound Devices", get_sound_devices env)])
  else if cat = "Battery Info" then .stored (get_battery_info env)
  else if cat = "Process Count" then .stored (get_process_count env)
  else if cat = "Boot Time" then .stored (get_boot_time env)
  else if cat = "Benchmarks" then .tierStarted
  else .stored (.obj [("Error", .leaf (.str "Unknown category"))])

/-- ExtendedHardwareHouseApp.show_info: added categories first, then the
parent chain. -/
def show_info_extended (env : Env) (cat : String) : FetchOutcome :=
  if cat = "USB Devices" then .stored (.obj [("USB Devices", get_usb_devices env)])
  else if cat = "Display Monitors" then .stored (.obj [("Display Monitors", get_display_monitors env)])
  else if cat = "Printers" then .stored (.obj [("Printers", get_printers env)])
  else if cat = "Installed Software" then .stored (.obj [("Installed Software", get_installed_software env)])
  else if cat = "Power Plan" then .stored (get_power_plan env)
  else if cat = "Locale & Timezone" then .stored (get_system_locale env)
  else if cat = "System Uptime" then .stored (get_system_uptime env)
  else if cat = "Extended Benchmarks" then .tierStarted
  else show_info_baseline env cat

/-- The well-formedness contract of the spec: a category result is an Object
or a List of Objects. -/
def isObjB : Record → Bool
  | .obj _ => true
  | _ => false

/-- Top-level shape check: Object, or List whose elements are all Objects. -/
def wellFormedB : Record → Bool
  | .obj _ => true
  | .list xs => xs.all isObjB
  | .leaf _ => false

/-!
### The structured (JSON) exporter

`export_json` is `json.dump(data, f, indent=4)`.  We model the emitted text
character-for-character: four spaces of indentation per nesting level, items
separated by a comma and newline, a colon and space between key and value,
empty containers on one line.  String escaping covers the quote, backslash,
the named control escapes and a x5cu00XX escape for other control
characters; other characters are written verbatim (Python additionally
x5cu-escapes non-ASCII characters by default, which parses back to the same
character, so the round-trip content is unaffected).  `json_load` models
json.load: whitespace-insensitive recursive descent, rebuilding dicts by
sequential key assignment (a repeated key keeps its position and takes the
last value). -/

/-- Decimal digit character. -/
def digitChar : Nat → Char
  | 0 => '0' | 1 => '1' | 2 => '2' | 3 => '3' | 4 => '4'
  | 5 => '5' | 6 => '6' | 7 => '7' | 8 => '8' | _ => '9'

/-- Lowercase hex digit character. -/
def hexDigitChar : Nat → Char
  | 0 => '0' | 1 => '1' | 2 => '2' | 3 => '3' | 4 => '4'
  | 5 => '5' | 6 => '6' | 7 => '7' | 8 => '8' | 9 => '9'
  | 10 => 'a' | 11 => 'b' | 12 => 'c' | 13 => 'd' | 14 => 'e' | _ => 'f'

/-- Decimal digits of a natural number, most significant first. -/
def natToDigits (n : Nat) : List Char :=
  if _h : n < 10 then [digitChar n]
  else natToDigits (n / 10) ++ [digitChar (n % 10)]
decreasing_by exact Nat.div_lt_self (by omega) (by omega)

/-- The characters of a Python / JSON integer literal. -/
def intToChars (n : Int) : List Char :=
  if n < 0 then '-' :: natToDigits (-n).toNat else natToDigits n.toNat

/-- JSON escape of one character. -/
def jsonEscapeChar (c : Char) : List Char :=
  if c = '"' then ['\\', '"']
  else if c = '\\' then ['\\', '\\']
  else if c = '\n' then ['\\', 'n']
  else if c = '\t' then ['\\', 't']
  else if c = '\r' then ['\\', 'r']
  else if c = '\x08' then ['\\', 'b']
  else if c = '\x0c' then ['\\', 'f']
  else if c.toNat < 32 then
    ['\\', 'u', '0', '0', hexDigitChar (c.toNat / 16), hexDigitChar (c.toNat % 16)]
  else [c]

/-- JSON escape of a string body. -/
def jsonEscape : List Char → List Char
  | [] => []
  | c :: cs => jsonEscapeChar c ++ jsonEscape cs

/-- The characters of a JSON scalar. -/
def dumpScalar : Value → List Char
  | .str s => '"' :: (jsonEscape s.data ++ ['"'])
  | .int n => intToChars n
  | .bool true => ['t', 'r', 'u', 'e']
  | .bool false => ['f', 'a', 'l', 's', 'e']

/-- indent=4: four spaces per nesting level. -/
def indentChars (d : Nat) : List Char := List.replicate (4 * d) ' '

mutual

/-- The characters json.dump(-, indent=4) writes for a value at nesting
depth d (the indentation the container has already emitted excluded). -/
def dumpChars : Record → Nat → List Char
  | .leaf v, _ => dumpScalar v
  | .obj [], _ => ['\x7b', '\x7d']
  | .obj (p :: ps), d =>
      '\x7b' :: '\n' :: (dumpFields (p :: ps) (d + 1) ++ '\n' :: (indentChars d ++ ['\x7d']))
  | .list [], _ => ['[', ']']
  | .list (x :: xs), d =>
      '[' :: '\n' :: (dumpItems (x :: xs) (d + 1) ++ '\n' :: (indentChars d ++ [']']))

/-- The comma-newline separated key/value lines of a non-empty object. -/
def dumpFields : List (String × Record) → Nat → List Char
  | [], _ => []
  | [(k, r)], d =>
      indentChars d ++ '"' :: (jsonEscape k.data ++ '"' :: ':' :: ' ' :: dumpChars r d)
  | (k, r) :: p :: ps, d =>
      indentChars d ++ '"' :: (jsonEscape k.data ++ '"' :: ':' :: ' ' :: dumpChars r d)
        ++ ',' :: '\n' :: dumpFields (p :: ps) d

/-- The comma-newline separated element lines of a non-empty array. -/
def dumpItems : List Record → Nat → List Char
  | [], _ => []
  | [x], d => indentChars d ++ dumpChars x d
  | x :: y :: xs, d =>
      indentChars d ++ dumpChars x d ++ ',' :: '\n' :: dumpItems (y :: xs) d

end

/-- The full serialized text of export_json. -/
def json_dump (data : Record) : String := String.mk (dumpChars data 0)

/-- JSON whitespace. -/
def isWsChar (c : Char) : Bool := c = ' ' || c = '\t' || c = '\n' || c = '\r'

/-- Drop leading whitespace. -/
def skipWs : List Char → List Char
  | [] => []
  | c :: cs => if isWsChar c then skipWs cs else c :: cs

/-- Value of a hex digit. -/
def hexVal (c : Char) : Option Nat :=
  if c.isDigit then some (c.toNat - 48)
  else if 'a' ≤ c ∧ c ≤ 'f' then some (c.toNat - 87)
  else if 'A' ≤ c ∧ c ≤ 'F' then some (c.toNat - 55)
  else none

/-- Inverse of the named escapes accepted after a backslash. -/
def jsonUnescapeChar (c : Char) : Option Char :=
  if c = '"' then some '"'
  else if c = '\\' then some '\\'
  else if c = '/' then some '/'
  else if c = 'n' then some '\n'
  else if c = 't' then some '\t'
  else if c = 'r' then some '\r'
  else if c = 'b' then some '\x08'
  else if c = 'f' then some '\x0c'
  else none

/-- Parse a string body after the opening quote, returning the decoded
characters and the input after the closing quote. -/
def parseStringBody : List Char → Option (List Char × List Char)
  | [] => none
  | c :: cs =>
    if c = '"' then some ([], cs)
    else if c = '\\' then
      match cs with
      | [] => none
      | e :: cs2 =>
        if e = 'u' then
          match cs2 with
          | h1 :: h2 :: h3 :: h4 :: cs3 =>
            match hexVal h1, hexVal h2, hexVal h3, hexVal h4 with
            | some a, some b, some c2, some d2 =>
              match parseStringBody cs3 with
              | some (s, r) => some (Char.ofNat (((a * 16 + b) * 16 + c2) * 16 + d2) :: s, r)
              | none => none
            | _, _, _, _ => none
          | _ => none
        else
          match jsonUnescapeChar e with
          | some ec =>
            match parseStringBody cs2 with
            | some (s, r) => some (ec :: s, r)
            | none => none
          | none => none
    else
      match parseStringBody cs with
      | some (s, r) => some (c :: s, r)
      | none => none

/-- Split off a maximal run of decimal digits. -/
def spanDigits : List Char → List Char × List Char
  | [] => ([], [])
  | c :: cs =>
    if c.isDigit then
      let (ds, r) := spanDigits cs
      (c :: ds, r)
    else ([], c :: cs)

/-- Numeric value of a digit run. -/
def digitsToNat (ds : List Char) : Nat :=
  ds.foldl (fun a c => 10 * a + (c.toNat - 48)) 0

mutual

/-- Parse one JSON value (fuelled recursive descent, as json.load). -/
def parseVal : Nat → List Char → Option (Record × List Char)
  | 0, _ => none
  | fuel + 1, cs =>
    match skipWs cs with
    | [] => none
    | c :: cs1 =>
      if c = '\x7b' then
        match skipWs cs1 with
        | [] => none
        | c2 :: cs2 =>
          if c2 = '\x7d' then some (.obj [], cs2)
          else
            match parseFields fuel [] cs1 with
            | some (ps, r) => some (.obj ps, r)
            | none => none
      else if c = '[' then
        match skipWs cs1 with
        | [] => none
        | c2 :: cs2 =>
          if c2 = ']' then some (.list [], cs2)
          else
            match parseItems fuel [] cs1 with
            | some (xs, r) => some (.list xs, r)
            | none => none
      else if c = '"' then
        match parseStringBody cs1 with
        | some (s, r) => some (.leaf (.str (String.mk s)), r)
        | none => none
      else if c = 't' then
        match cs1 with
        | c1 :: c2 :: c3 :: r =>
          if c1 = 'r' ∧ c2 = 'u' ∧ c3 = 'e' then some (.leaf (.bool true), r) else none
        | _ => none
      else if c = 'f' then
        match cs1 with
        | c1 :: c2 :: c3 :: c4 :: r =>
          if c1 = 'a' ∧ c2 = 'l' ∧ c3 = 's' ∧ c4 = 'e' then some (.leaf (.bool false), r)
          else none
        | _ => none
      else if c = '-' then
        match spanDigits cs1 with
        | ([], _) => none
        | (d :: ds, r) => some (.leaf (.int (-(digitsToNat (d :: ds) : Int))), r)
      else if c.isDigit then
        let (ds, r) := spanDigits (c :: cs1)
        some (.leaf (.int (digitsToNat ds)), r)
      else none

/-- Parse the members of an object after its opening brace, assigning each
pair into the dict under construction as Python does. -/
def parseFields : Nat → List (String × Record) → List Char →
    Option (List (String × Record) × List Char)
  | 0, _, _ => none
  | fuel + 1, acc, cs =>
    match skipWs cs with
    | [] => none
    | c :: cs1 =>
      if c = '"' then
        match parseStringBody cs1 with
        | some (k, cs2) =>
          (match skipWs cs2 with
           | [] => none
           | c3 :: cs3 =>
             if c3 = ':' then
               match parseVal fuel cs3 with
               | some (v, cs4) =>
                 (match skipWs cs4 with
                  | [] => none
                  | c5 :: cs5 =>
                    if c5 = ',' then parseFields fuel (insertPair acc (String.mk k) v) cs5
                    else if c5 = '\x7d' then some (insertPair acc (String.mk k) v, cs5)
                    else none)
               | none => none
             else none)
        | none => none
      else none

/-- Parse the elements of an array after its opening bracket. -/
def parseItems : Nat → List Record → List Char → Option (List Record × List Char)
  | 0, _, _ => none
  | fuel + 1, acc, cs =>
    match parseVal fuel cs with
    | some (v, cs1) =>
      (match skipWs cs1 with
       | [] => none
       | c2 :: cs2 =>
         if c2 = ',' then parseItems fuel (acc ++ [v]) cs2
         else if c2 = ']' then some (acc ++ [v], cs2)
         else none)
    | none => none

end

/-- json.load of a whole document: one value and nothing but whitespace
after it. -/
def json_load (s : String) : Option Record :=
  match parseVal (s.length + 1) s.data with
  | some (r, rest) => if (skipWs rest).isEmpty then some r else none
  | none => none

/-!
### Auxiliary lemmas for the structured-export round-trip -/

/-- Character lists consisting of JSON whitespace only. -/
def allWs (l : List Char) : Prop := ∀ c ∈ l, isWsChar c = true

theorem allWs_nil : allWs [] := by intro c hc; cases hc

theorem allWs_cons {c : Char} {l : List Char} (h : isWsChar c = true) (h2 : allWs l) :
    allWs (c :: l) := by
  intro x hx
  rcases List.mem_cons.mp hx with h3 | h3
  · rw [h3]; exact h
  · exact h2 x h3

theorem allWs_indent (d : Nat) : allWs (indentChars d) := by
  intro c hc
  rw [indentChars] at hc
  rw [List.eq_of_mem_replicate hc]
  rfl

theorem allWs_append {l1 l2 : List Char} (h1 : allWs l1) (h2 : allWs l2) :
    allWs (l1 ++ l2) := by
  intro c hc
  rcases List.mem_append.mp hc with h3 | h3
  · exact h1 c h3
  · exact h2 c h3

theorem skipWs_cons_ws {c : Char} (h : isWsChar c = true) (l : List Char) :
    skipWs (c :: l) = skipWs l := by simp [skipWs, h]

theorem skipWs_cons_not {c : Char} (h : isWsChar c = false) (l : List Char) :
    skipWs (c :: l) = c :: l := by simp [skipWs, h]

theorem skipWs_append_ws {pre : List Char} (h : allWs pre) (l : List Char) :
    skipWs (pre ++ l) = skipWs l := by
  induction pre with
  | nil => rfl
  | cons c cs ih =>
      rw [List.cons_append, skipWs_cons_ws (h c (List.mem_cons_self c cs))]
      exact ih (fun x hx => h x (List.mem_cons_of_mem c hx))

theorem ws_not_digit {c : Char} (h : isWsChar c = true) : c.isDigit = false := by
  rw [isWsChar] at h
  simp only [Bool.or_eq_true, decide_eq_true_eq] at h
  rcases h with ((h | h) | h) | h <;> rw [h] <;> decide

theorem digit_not_ws {c : Char} (h : c.isDigit = true) : isWsChar c = false := by
  cases hw : isWsChar c with
  | false => rfl
  | true => rw [ws_not_digit hw] at h; exact absurd h (by decide)

theorem digit_ne {c cc : Char} (h : c.isDigit = true) (h2 : cc.isDigit = false) :
    c ≠ cc := by
  intro he
  rw [he, h2] at h
  exact absurd h (by decide)

theorem hexVal_hexDigitChar : ∀ n, n < 16 → hexVal (hexDigitChar n) = some n := by decide

theorem digitChar_isDigit : ∀ n, n < 10 → (digitChar n).isDigit = true := by decide

theorem digitChar_toNat : ∀ n, n < 10 → (digitChar n).toNat = 48 + n := by decide

theorem natToDigits_ne_nil (n : Nat) : natToDigits n ≠ [] := by
  rw [natToDigits]
  split <;> simp

theorem natToDigits_digits (n : Nat) : ∀ c ∈ natToDigits n, c.isDigit = true := by
  induction n using Nat.strong_induction_on with
  | _ n ih =>
    rw [natToDigits]
    split
    · rename_i h
      intro c hc
      rw [List.mem_singleton] at hc
      rw [hc]
      exact digitChar_isDigit n h
    · rename_i h
      intro c hc
      rcases List.mem_append.mp hc with h2 | h2
      · exact ih (n / 10) (Nat.div_lt_self (by omega) (by omega)) c h2
      · rw [List.mem_singleton] at h2
        rw [h2]
        exact digitChar_isDigit _ (Nat.mod_lt _ (by omega))

theorem digitsToNat_append (l : List Char) (c : Char) :
    digitsToNat (l ++ [c]) = 10 * digitsToNat l + (c.toNat - 48) := by
  rw [digitsToNat, digitsToNat, List.foldl_append]
  rfl

theorem digitsToNat_natToDigits (n : Nat) : digitsToNat (natToDigits n) = n := by
  induction n using Nat.strong_induction_on with
  | _ n ih =>
    rw [natToDigits]
    split
    · rename_i h
      have h2 : digitsToNat [digitChar n] = 10 * 0 + ((digitChar n).toNat - 48) := rfl
      rw [h2, digitChar_toNat n h]
      omega
    · rename_i h
      rw [digitsToNat_append, ih (n / 10) (Nat.div_lt_self (by omega) (by omega)),
          digitChar_toNat (n % 10) (Nat.mod_lt _ (by omega))]
      omega

/-- The remaining input does not begin with a digit (so a digit run just
parsed cannot silently extend into it). -/
def headNotDigit : List Char → Prop
  | [] => True
  | c :: _ => c.isDigit = false

theorem headNotDigit_ws_append {wsc : List Char} {c : Char} {l : List Char}
    (h : allWs wsc) (h2 : c.isDigit = false) : headNotDigit (wsc ++ c :: l) := by
  cases wsc with
  | nil => exact h2
  | cons w ws => exact ws_not_digit (h w (List.mem_cons_self w ws))

theorem spanDigits_exact : ∀ (ds rest : List Char), (∀ c ∈ ds, c.isDigit = true) →
    headNotDigit rest → spanDigits (ds ++ rest) = (ds, rest) := by
  intro ds
  induction ds with
  | nil =>
    intro rest _ h2
    cases rest with
    | nil => rfl
    | cons c l =>
      simp only [headNotDigit] at h2
      simp [spanDigits, h2]
  | cons c cs ih =>
    intro rest h h2
    have hc : c.isDigit = true := h c (List.mem_cons_self c cs)
    have hrec := ih rest (fun x hx => h x (List.mem_cons_of_mem c hx)) h2
    simp [spanDigits, hc, hrec]

theorem parseStringBody_escape : ∀ (s rest : List Char),
    parseStringBody (jsonEscape s ++ '"' :: rest) = some (s, rest) := by
  intro s
  induction s with
  | nil =>
    intro rest
    rw [jsonEscape, List.nil_append, parseStringBody.eq_def]
    simp
  | cons c cs ih =>
    intro rest
    rw [jsonEscape, jsonEscapeChar]
    split_ifs with h1 h2 h3 h4 h5 h6 h7 h8
    · rw [h1, parseStringBody.eq_def]; simp [jsonUnescapeChar, ih rest]
    · rw [h2, parseStringBody.eq_def]; simp [jsonUnescapeChar, ih rest]
    · rw [h3, parseStringBody.eq_def]; simp [jsonUnescapeChar, ih rest]
    · rw [h4, parseStringBody.eq_def]; simp [jsonUnescapeChar, ih rest]
    · rw [h5, parseStringBody.eq_def]; simp [jsonUnescapeChar, ih rest]
    · rw [h6, parseStringBody.eq_def]; simp [jsonUnescapeChar, ih rest]
    · rw [h7, parseStringBody.eq_def]; simp [jsonUnescapeChar, ih rest]
    · have e1 : hexVal (hexDigitChar (c.toNat / 16)) = some (c.toNat / 16) :=
        hexVal_hexDigitChar _ (by omega)
      have e2 : hexVal (hexDigitChar (c.toNat % 16)) = some (c.toNat % 16) :=
        hexVal_hexDigitChar _ (by omega)
      rw [parseStringBody.eq_def]
      simp [e1, e2, show hexVal '0' = some 0 from by decide, ih rest]
      rw [show c.toNat / 16 * 16 + c.toNat % 16 = c.toNat from by omega]
      exact Char.ofNat_toNat c
    · rw [parseStringBody.eq_def]
      simp [h1, h2, ih rest]

theorem insertPair_append {acc : List (String × Record)} {k : String} (v : Record)
    (h : ∀ p ∈ acc, p.1 ≠ k) : insertPair acc k v = acc ++ [(k, v)] := by
  induction acc with
  | nil => rfl
  | cons p ps ih =>
    obtain ⟨k2, v2⟩ := p
    have hk2 : k2 ≠ k := h (k2, v2) (List.mem_cons_self _ _)
    rw [insertPair, if_neg hk2, ih (fun q hq => h q (List.mem_cons_of_mem _ hq)),
        List.cons_append]

theorem nodupKeys_no_left {l1 l2 : List (String × Record)} {k : String} {v : Record}
    (h : nodupKeys (l1 ++ (k, v) :: l2) = true) : ∀ p ∈ l1, p.1 ≠ k := by
  induction l1 with
  | nil => intro p hp; cases hp
  | cons q qs ih =>
    obtain ⟨k0, v0⟩ := q
    rw [List.cons_append, nodupKeys] at h
    simp only [Bool.and_eq_true, Bool.not_eq_true'] at h
    obtain ⟨h1, h2⟩ := h
    intro p hp
    rcases List.mem_cons.mp hp with he | hm
    · rw [he]
      intro hk
      have : ((k, v).1 == k0) = true := by
        rw [beq_iff_eq]
        exact hk.symm
      have hmem : (k, v) ∈ qs ++ (k, v) :: l2 :=
        List.mem_append_right _ (List.mem_cons_self _ _)
      rw [List.any_eq_false] at h1
      exact absurd this (h1 (k, v) hmem)
    · exact ih h2 p hm

theorem intToChars_head (n : Int) :
    ∃ c t, intToChars n = c :: t ∧ (c.isDigit = true ∨ c = '-') := by
  rw [intToChars]
  split_ifs with h
  · exact ⟨'-', natToDigits (-n).toNat, rfl, Or.inr rfl⟩
  · obtain ⟨c, t, hct⟩ := List.exists_cons_of_ne_nil (natToDigits_ne_nil n.toNat)
    exact ⟨c, t, hct, Or.inl (natToDigits_digits _ c (hct ▸ List.mem_cons_self c t))⟩

theorem dumpChars_head (r : Record) (d : Nat) :
    ∃ c t, dumpChars r d = c :: t ∧ isWsChar c = false ∧ c ≠ '\x7d' ∧ c ≠ ']' := by
  cases r with
  | leaf v =>
    cases v with
    | str s =>
      exact ⟨'"', jsonEscape s.data ++ ['"'], by simp [dumpChars, dumpScalar],
        by decide, by decide, by decide⟩
    | int n =>
      obtain ⟨c, t, hct, hd⟩ := intToChars_head n
      refine ⟨c, t, by simp [dumpChars, dumpScalar, hct], ?_, ?_, ?_⟩
      · rcases hd with hd | hd
        · exact digit_not_ws hd
        · rw [hd]; decide
      · rcases hd with hd | hd
        · exact digit_ne hd (by decide)
        · rw [hd]; decide
      · rcases hd with hd | hd
        · exact digit_ne hd (by decide)
        · rw [hd]; decide
    | bool b =>
      cases b with
      | true =>
        exact ⟨'t', ['r', 'u', 'e'], by simp [dumpChars, dumpScalar],
          by decide, by decide, by decide⟩
      | false =>
        exact ⟨'f', ['a', 'l', 's', 'e'], by simp [dumpChars, dumpScalar],
          by decide, by decide, by decide⟩
  | obj ps =>
    cases ps with
    | nil => exact ⟨'\x7b', ['\x7d'], by simp [dumpChars], by decide, by decide, by decide⟩
    | cons p ps2 =>
      exact ⟨'\x7b', '\n' :: (dumpFields (p :: ps2) (d + 1) ++ '\n' :: (indentChars d ++ ['\x7d'])),
        by simp [dumpChars], by decide, by decide, by decide⟩
  | list xs =>
    cases xs with
    | nil => exact ⟨'[', [']'], by simp [dumpChars], by decide, by decide, by decide⟩
    | cons x xs2 =>
      exact ⟨'[', '\n' :: (dumpItems (x :: xs2) (d + 1) ++ '\n' :: (indentChars d ++ [']'])),
        by simp [dumpChars], by decide, by decide, by decide⟩

theorem dumpFields_singleton (k : String) (r : Record) (d : Nat) :
    dumpFields [(k, r)] d
      = indentChars d ++ '"' :: (jsonEscape k.data ++ '"' :: ':' :: ' ' :: dumpChars r d) := by
  simp [dumpFields]

theorem dumpFields_cons2 (k : String) (r : Record) (p : String × Record)
    (ps : List (String × Record)) (d : Nat) :
    dumpFields ((k, r) :: p :: ps) d
      = indentChars d ++ '"' :: (jsonEscape k.data ++ '"' :: ':' :: ' '
          :: (dumpChars r d ++ ',' :: '\n' :: dumpFields (p :: ps) d)) := by
  simp [dumpFields]

mutual

theorem size_le_dump : ∀ (r : Record) (d : Nat), sizeR r ≤ (dumpChars r d).length
  | .leaf v, d => by
    cases v with
    | str s => simp [dumpChars, dumpScalar, sizeR]
    | int n =>
      obtain ⟨c, t, hct, _⟩ := intToChars_head n
      simp [dumpChars, dumpScalar, sizeR, hct]
    | bool b => cases b <;> simp [dumpChars, dumpScalar, sizeR]
  | .obj [], d => by simp [dumpChars, sizeR, sizeFs]
  | .obj (p :: ps), d => by
    have h := sizeFs_le_dump (p :: ps) (d + 1)
    simp [dumpChars, sizeR]
    omega
  | .list [], d => by simp [dumpChars, sizeR, sizeIs]
  | .list (x :: xs), d => by
    have h := sizeIs_le_dump (x :: xs) d
    simp [dumpChars, sizeR]
    omega

theorem sizeFs_le_dump : ∀ (ps : List (String × Record)) (d : Nat),
    sizeFs ps ≤ (dumpFields ps d).length
  | [], d => by simp [dumpFields, sizeFs]
  | [(k, r)], d => by
    have h := size_le_dump r d
    simp [dumpFields, sizeFs, sizeR, indentChars]
    omega
  | (k, r) :: p :: ps, d => by
    have h1 := size_le_dump r d
    have h2 := sizeFs_le_dump (p :: ps) d
    simp [sizeFs] at h2
    simp [dumpFields, sizeFs, indentChars]
    omega

theorem sizeIs_le_dump : ∀ (xs : List Record) (d : Nat),
    sizeIs xs ≤ (dumpItems xs (d + 1)).length
  | [], d => by simp [dumpItems, sizeIs]
  | [x], d => by
    have h := size_le_dump x (d + 1)
    simp [dumpItems, sizeIs, indentChars]
    omega
  | x :: y :: xs, d => by
    have h1 := size_le_dump x (d + 1)
    have h2 := sizeIs_le_dump (y :: xs) d
    simp [sizeIs] at h2
    simp [dumpItems, sizeIs, indentChars]
    omega

end

theorem skipWs_shape {pre A : List Char} (hpre : allWs pre) {c : Char}
    (hc : isWsChar c = false) {B : List Char} (hA : A = c :: B) :
    skipWs (pre ++ A) = c :: B := by
  rw [skipWs_append_ws hpre, hA, skipWs_cons_not hc]

theorem dumpFields_head (p : String × Record) (ps : List (String × Record)) (d : Nat) :
    ∃ B, dumpFields (p :: ps) d = indentChars d ++ '"' :: B := by
  obtain ⟨k, r⟩ := p
  cases ps with
  | nil => exact ⟨_, dumpFields_singleton k r d⟩
  | cons q qs => exact ⟨_, dumpFields_cons2 k r q qs d⟩

theorem dumpItems_head (x : Record) (xs : List Record) (d : Nat) :
    ∃ B, dumpItems (x :: xs) d = indentChars d ++ (dumpChars x d ++ B) := by
  cases xs with
  | nil => exact ⟨[], by simp [dumpItems]⟩
  | cons y ys => exact ⟨',' :: '\n' :: dumpItems (y :: ys) d, by simp [dumpItems]⟩

/-- The central completeness fact: the parser, run on the serialized text of a
well-formed record followed by any non-digit-initial remainder, returns
exactly that record and consumes exactly that text; likewise for the field
and item sub-parsers. -/
theorem parse_dump_all : ∀ fuel : Nat,
    (∀ (r : Record) (d : Nat) (pre rest : List Char),
      wfR r = true → sizeR r < fuel → allWs pre → headNotDigit rest →
      parseVal fuel (pre ++ (dumpChars r d ++ rest)) = some (r, rest)) ∧
    (∀ (ps acc : List (String × Record)) (d : Nat) (pre wsc rest : List Char),
      ps ≠ [] → nodupKeys (acc ++ ps) = true → wfFs ps = true → sizeFs ps < fuel →
      allWs pre → allWs wsc →
      parseFields fuel acc (pre ++ (dumpFields ps d ++ (wsc ++ '\x7d' :: rest)))
        = some (acc ++ ps, rest)) ∧
    (∀ (xs acc : List Record) (d : Nat) (pre wsc rest : List Char),
      xs ≠ [] → wfIs xs = true → sizeIs xs < fuel →
      allWs pre → allWs wsc →
      parseItems fuel acc (pre ++ (dumpItems xs d ++ (wsc ++ ']' :: rest)))
        = some (acc ++ xs, rest)) := by
  intro fuel
  induction fuel with
  | zero =>
    exact ⟨fun r d pre rest _ h => absurd h (by omega),
           fun ps acc d pre wsc rest _ _ _ h => absurd h (by omega),
           fun xs acc d pre wsc rest _ _ h => absurd h (by omega)⟩
  | succ fuel ih =>
    obtain ⟨ihV, ihF, ihI⟩ := ih
    refine ⟨?_, ?_, ?_⟩
    · -- parseVal
      intro r d pre rest hwf hsz hpre hrest
      cases r with
      | leaf v =>
        cases v with
        | str s =>
          have hskip := skipWs_shape hpre (show isWsChar '"' = false by decide)
            (show dumpChars (.leaf (.str s)) d ++ rest
              = '"' :: (jsonEscape s.data ++ '"' :: rest) by simp [dumpChars, dumpScalar])
          simp [parseVal, hskip, parseStringBody_escape]
        | int n =>
          by_cases hneg : n < 0
          · obtain ⟨c0, t0, hct⟩ :=
              List.exists_cons_of_ne_nil (natToDigits_ne_nil (-n).toNat)
            have hd0 : c0.isDigit = true :=
              natToDigits_digits _ c0 (hct ▸ List.mem_cons_self _ _)
            have hskip := skipWs_shape hpre (show isWsChar '-' = false by decide)
              (show dumpChars (.leaf (.int n)) d ++ rest = '-' :: (c0 :: (t0 ++ rest)) by
                simp [dumpChars, dumpScalar, intToChars, hneg, hct])
            have hspan : spanDigits (c0 :: (t0 ++ rest)) = (c0 :: t0, rest) := by
              have h2 := spanDigits_exact (c0 :: t0) rest
                (fun c hc => natToDigits_digits _ c (hct ▸ hc)) hrest
              simpa using h2
            have hval : digitsToNat (c0 :: t0) = (-n).toNat := by
              rw [← hct]; exact digitsToNat_natToDigits _
            simp [parseVal, hskip, hspan, hval]
            omega
          · obtain ⟨c0, t0, hct⟩ :=
              List.exists_cons_of_ne_nil (natToDigits_ne_nil n.toNat)
            have hd0 : c0.isDigit = true :=
              natToDigits_digits _ c0 (hct ▸ List.mem_cons_self _ _)
            have hskip := skipWs_shape hpre (digit_not_ws hd0)
              (show dumpChars (.leaf (.int n)) d ++ rest = c0 :: (t0 ++ rest) by
                simp [dumpChars, dumpScalar, intToChars, hneg, hct])
            have hspan : spanDigits (c0 :: (t0 ++ rest)) = (c0 :: t0, rest) := by
              have h2 := spanDigits_exact (c0 :: t0) rest
                (fun c hc => natToDigits_digits _ c (hct ▸ hc)) hrest
              simpa using h2
            have hval : digitsToNat (c0 :: t0) = n.toNat := by
              rw [← hct]; exact digitsToNat_natToDigits _
            have hcast : ((n.toNat : Int)) = n := Int.toNat_of_nonneg (by omega)
            have h1 : c0 ≠ '\x7b' := digit_ne hd0 (by decide)
            have h2 : c0 ≠ '[' := digit_ne hd0 (by decide)
            have h3 : c0 ≠ '"' := digit_ne hd0 (by decide)
            have h4 : c0 ≠ 't' := digit_ne hd0 (by decide)
            have h5 : c0 ≠ 'f' := digit_ne hd0 (by decide)
            have h6 : c0 ≠ '-' := digit_ne hd0 (by decide)
            simp [parseVal, hskip, h1, h2, h3, h4, h5, h6, hd0, hspan, hval, hcast]
        | bool b =>
          cases b with
          | true =>
            have hskip := skipWs_shape hpre (show isWsChar 't' = false by decide)
              (show dumpChars (.leaf (.bool true)) d ++ rest
                = 't' :: ('r' :: 'u' :: 'e' :: rest) by simp [dumpChars, dumpScalar])
            simp [parseVal, hskip]
          | false =>
            have hskip := skipWs_shape hpre (show isWsChar 'f' = false by decide)
              (show dumpChars (.leaf (.bool false)) d ++ rest
                = 'f' :: ('a' :: 'l' :: 's' :: 'e' :: rest) by simp [dumpChars, dumpScalar])
            simp [parseVal, hskip]
      | obj ps =>
        cases ps with
        | nil =>
          have hskip := skipWs_shape hpre (show isWsChar '\x7b' = false by decide)
            (show dumpChars (.obj []) d ++ rest = '\x7b' :: ('\x7d' :: rest) by
              simp [dumpChars])
          have hskip2 : skipWs ('\x7d' :: rest) = '\x7d' :: rest :=
            skipWs_cons_not (by decide) rest
          simp [parseVal, hskip, hskip2]
        | cons p ps2 =>
          have hwf2 : nodupKeys (p :: ps2) = true ∧ wfFs (p :: ps2) = true := by
            have h2 := hwf
            simp only [wfR, Bool.and_eq_true] at h2
            exact h2
          have hsz2 : sizeFs (p :: ps2) < fuel := by
            simp only [sizeR] at hsz
            omega
          have hfields := ihF (p :: ps2) [] (d + 1) ['\n'] ('\n' :: indentChars d) rest
            (by simp) (by simpa using hwf2.1) hwf2.2 hsz2
            (allWs_cons (by decide) allWs_nil)
            (allWs_cons (by decide) (allWs_indent d))
          simp only [List.singleton_append, List.nil_append, List.append_assoc,
            List.cons_append] at hfields
          have hskip := skipWs_shape hpre (show isWsChar '\x7b' = false by decide)
            (show dumpChars (.obj (p :: ps2)) d ++ rest
              = '\x7b' :: ('\n' :: (dumpFields (p :: ps2) (d + 1)
                  ++ ('\n' :: (indentChars d ++ ('\x7d' :: rest))))) by
              simp [dumpChars])
          obtain ⟨B, hB⟩ := dumpFields_head p ps2 (d + 1)
          have hpeek : skipWs ('\n' :: (dumpFields (p :: ps2) (d + 1)
              ++ ('\n' :: (indentChars d ++ ('\x7d' :: rest)))))
              = '"' :: (B ++ ('\n' :: (indentChars d ++ ('\x7d' :: rest)))) := by
            rw [skipWs_cons_ws (by decide), hB, List.append_assoc,
                skipWs_append_ws (allWs_indent (d + 1)), List.cons_append,
                skipWs_cons_not (by decide)]
          simp [parseVal, hskip, hpeek, hfields]
      | list xs =>
        cases xs with
        | nil =>
          have hskip := skipWs_shape hpre (show isWsChar '[' = false by decide)
            (show dumpChars (.list []) d ++ rest = '[' :: (']' :: rest) by
              simp [dumpChars])
          have hskip2 : skipWs (']' :: rest) = ']' :: rest :=
            skipWs_cons_not (by decide) rest
          simp [parseVal, hskip, hskip2]
        | cons x xs2 =>
          have hwf2 : wfIs (x :: xs2) = true := by
            have h2 := hwf
            simp only [wfR] at h2
            exact h2
          have hsz2 : sizeIs (x :: xs2) < fuel := by
            simp only [sizeR] at hsz
            omega
          have hitems := ihI (x :: xs2) [] (d + 1) ['\n'] ('\n' :: indentChars d) rest
            (by simp) hwf2 hsz2
            (allWs_cons (by decide) allWs_nil)
            (allWs_cons (by decide) (allWs_indent d))
          simp only [List.singleton_append, List.nil_append, List.append_assoc,
            List.cons_append] at hitems
          have hskip := skipWs_shape hpre (show isWsChar '[' = false by decide)
            (show dumpChars (.list (x :: xs2)) d ++ rest
              = '[' :: ('\n' :: (dumpItems (x :: xs2) (d + 1)
                  ++ ('\n' :: (indentChars d ++ (']' :: rest))))) by
              simp [dumpChars])
          obtain ⟨B, hB⟩ := dumpItems_head x xs2 (d + 1)
          obtain ⟨c0, t0, hct, hcws, hcbrace, hcbrack⟩ := dumpChars_head x (d + 1)
          have hpeek : skipWs ('\n' :: (dumpItems (x :: xs2) (d + 1)
              ++ ('\n' :: (indentChars d ++ (']' :: rest)))))
              = c0 :: (t0 ++ (B ++ ('\n' :: (indentChars d ++ (']' :: rest))))) := by
            rw [skipWs_cons_ws (by decide), hB, List.append_assoc,
                skipWs_append_ws (allWs_indent (d + 1)), hct, List.append_assoc,
                List.cons_append, skipWs_cons_not hcws]
          simp [parseVal, hskip, hpeek, hcbrack, hitems]
    · -- parseFields
      intro ps acc d pre wsc rest hne hnodup hwfFs hsz hpre hwsc
      cases ps with
      | nil => exact absurd rfl hne
      | cons p ps2 =>
        obtain ⟨k, v⟩ := p
        have hwf2 : wfR v = true ∧ wfFs ps2 = true := by
          have h2 := hwfFs
          simp only [wfFs, Bool.and_eq_true] at h2
          exact h2
        have hsz2 : 1 + sizeR v + sizeFs ps2 < fuel + 1 := by
          simp only [sizeFs] at hsz
          omega
        have hnokey : ∀ q ∈ acc, q.1 ≠ k := nodupKeys_no_left hnodup
        have hins : insertPair acc (String.mk k.data) v = acc ++ [(k, v)] :=
          insertPair_append v hnokey
        cases ps2 with
        | nil =>
          have hskip : skipWs (pre ++ (dumpFields [(k, v)] d ++ (wsc ++ '\x7d' :: rest)))
              = '"' :: (jsonEscape k.data ++ '"' :: ':' :: ' '
                  :: (dumpChars v d ++ (wsc ++ '\x7d' :: rest))) := by
            rw [show dumpFields [(k, v)] d ++ (wsc ++ '\x7d' :: rest)
                = indentChars d ++ ('"' :: (jsonEscape k.data ++ '"' :: ':' :: ' '
                    :: (dumpChars v d ++ (wsc ++ '\x7d' :: rest)))) from by
              rw [dumpFields_singleton]; simp]
            rw [← List.append_assoc, skipWs_append_ws (allWs_append hpre (allWs_indent d)),
                skipWs_cons_not (by decide)]
          have hval := ihV v d [' '] (wsc ++ '\x7d' :: rest) hwf2.1 (by omega)
            (allWs_cons (by decide) allWs_nil)
            (headNotDigit_ws_append hwsc (by decide))
          simp only [List.singleton_append, List.nil_append, List.append_assoc, List.cons_append] at hval
          have hcolon : skipWs (':' :: ' ' :: (dumpChars v d ++ (wsc ++ '\x7d' :: rest)))
              = ':' :: ' ' :: (dumpChars v d ++ (wsc ++ '\x7d' :: rest)) :=
            skipWs_cons_not (by decide) _
          have hafter : skipWs (wsc ++ '\x7d' :: rest) = '\x7d' :: rest := by
            rw [skipWs_append_ws hwsc, skipWs_cons_not (by decide)]
          simp [parseFields, hskip, parseStringBody_escape, hcolon, hval, hafter, hins]
        | cons q qs =>
          have hskip : skipWs (pre ++ (dumpFields ((k, v) :: q :: qs) d
                ++ (wsc ++ '\x7d' :: rest)))
              = '"' :: (jsonEscape k.data ++ '"' :: ':' :: ' '
                  :: (dumpChars v d ++ (',' :: '\n' :: (dumpFields (q :: qs) d
                      ++ (wsc ++ '\x7d' :: rest))))) := by
            rw [show dumpFields ((k, v) :: q :: qs) d ++ (wsc ++ '\x7d' :: rest)
                = indentChars d ++ ('"' :: (jsonEscape k.data ++ '"' :: ':' :: ' '
                    :: (dumpChars v d ++ (',' :: '\n' :: (dumpFields (q :: qs) d
                        ++ (wsc ++ '\x7d' :: rest)))))) from by
              rw [dumpFields_cons2]; simp]
            rw [← List.append_assoc, skipWs_append_ws (allWs_append hpre (allWs_indent d)),
                skipWs_cons_not (by decide)]
          have hval := ihV v d [' ']
            (',' :: '\n' :: (dumpFields (q :: qs) d ++ (wsc ++ '\x7d' :: rest)))
            hwf2.1 (by omega) (allWs_cons (by decide) allWs_nil)
            (by simp [headNotDigit])
          simp only [List.singleton_append, List.nil_append, List.append_assoc, List.cons_append] at hval
          have hcolon : skipWs (':' :: ' ' :: (dumpChars v d
                ++ (',' :: '\n' :: (dumpFields (q :: qs) d ++ (wsc ++ '\x7d' :: rest)))))
              = ':' :: ' ' :: (dumpChars v d
                  ++ (',' :: '\n' :: (dumpFields (q :: qs) d ++ (wsc ++ '\x7d' :: rest)))) :=
            skipWs_cons_not (by decide) _
          have hafter : skipWs (',' :: '\n' :: (dumpFields (q :: qs) d
                ++ (wsc ++ '\x7d' :: rest)))
              = ',' :: '\n' :: (dumpFields (q :: qs) d ++ (wsc ++ '\x7d' :: rest)) :=
            skipWs_cons_not (by decide) _
          have hrec := ihF (q :: qs) (acc ++ [(k, v)]) d ['\n'] wsc rest
            (by simp) (by simpa using hnodup) hwf2.2 (by omega)
            (allWs_cons (by decide) allWs_nil) hwsc
          simp only [List.singleton_append, List.nil_append, List.append_assoc, List.cons_append] at hrec
          simp [parseFields, hskip, parseStringBody_escape, hcolon, hval, hafter,
            hins, hrec]
    · -- parseItems
      intro xs acc d pre wsc rest hne hwfIs hsz hpre hwsc
      cases xs with
      | nil => exact absurd rfl hne
      | cons x xs2 =>
        have hwf2 : wfR x = true ∧ wfIs xs2 = true := by
          have h2 := hwfIs
          simp only [wfIs, Bool.and_eq_true] at h2
          exact h2
        have hsz2 : 1 + sizeR x + sizeIs xs2 < fuel + 1 := by
          simp only [sizeIs] at hsz
          omega
        cases xs2 with
        | nil =>
          have heq : pre ++ (dumpItems [x] d ++ (wsc ++ ']' :: rest))
              = (pre ++ indentChars d) ++ (dumpChars x d ++ (wsc ++ ']' :: rest)) := by
            simp [dumpItems]
          have hval := ihV x d (pre ++ indentChars d) (wsc ++ ']' :: rest) hwf2.1
            (by omega) (allWs_append hpre (allWs_indent d))
            (headNotDigit_ws_append hwsc (by decide))
          simp only [List.nil_append, List.append_assoc, List.cons_append] at hval
          have hafter : skipWs (wsc ++ ']' :: rest) = ']' :: rest := by
            rw [skipWs_append_ws hwsc, skipWs_cons_not (by decide)]
          rw [heq]
          simp [parseItems, hval, hafter]
        | cons y ys =>
          have heq : pre ++ (dumpItems (x :: y :: ys) d ++ (wsc ++ ']' :: rest))
              = (pre ++ indentChars d) ++ (dumpChars x d
                  ++ (',' :: '\n' :: (dumpItems (y :: ys) d ++ (wsc ++ ']' :: rest)))) := by
            simp [dumpItems]
          have hval := ihV x d (pre ++ indentChars d)
            (',' :: '\n' :: (dumpItems (y :: ys) d ++ (wsc ++ ']' :: rest))) hwf2.1
            (by omega) (allWs_append hpre (allWs_indent d))
            (by simp [headNotDigit])
          simp only [List.nil_append, List.append_assoc, List.cons_append] at hval
          have hafter : skipWs (',' :: '\n' :: (dumpItems (y :: ys) d
                ++ (wsc ++ ']' :: rest)))
              = ',' :: '\n' :: (dumpItems (y :: ys) d ++ (wsc ++ ']' :: rest)) :=
            skipWs_cons_not (by decide) _
          have hrec := ihI (y :: ys) (acc ++ [x]) d ['\n'] wsc rest
            (by simp) hwf2.2 (by omega)
            (allWs_cons (by decide) allWs_nil) hwsc
          simp only [List.singleton_append, List.nil_append, List.append_assoc, List.cons_append] at hrec
          rw [heq]
          simp [parseItems, hval, hafter, hrec]

/-- json.load inverts json.dump on every well-formed record. -/
theorem json_load_dump (r : Record) (h : wfR r = true) :
    json_load (json_dump r) = some r := by
  have hsize := size_le_dump r 0
  have hmain := (parse_dump_all ((dumpChars r 0).length + 1)).1 r 0 [] []
    h (by omega) allWs_nil trivial
  simp only [List.nil_append, List.append_nil] at hmain
  have h1 : json_load (json_dump r)
      = (match parseVal ((dumpChars r 0).length + 1) (dumpChars r 0) with
         | some (r2, rest) => if (skipWs rest).isEmpty then some r2 else none
         | none => none) := rfl
  rw [h1, hmain]
  simp [skipWs]

/-!
### The exporter entry points

Both exporters wrap their whole body (file open, serialization, writing) in
a try/except; they return True on success and the exception text on failure.
The file system is the collaborator: `fileWrite` either accepts the payload
or raises. -/

/-- export_json(data, filename): json.dump into the opened file. -/
def export_json (fileWrite : String → Except String Unit) (data : Record) :
    Sum Bool String :=
  match fileWrite (json_dump data) with
  | .ok _ => Sum.inl true
  | .error e => Sum.inr e

/-- export_csv(data, filename): the rows of write_dict into csv.writer. -/
def export_csv (fileWrite : List (List String) → Except String Unit)
    (data : List (String × Record)) : Sum Bool String :=
  match fileWrite (write_dict data "") with
  | .ok _ => Sum.inl true
  | .error e => Sum.inr e

/-!
### Concrete environments -/

/-- An environment in which every platform collaborator succeeds. -/
def envAllOk : Env where
  uname := .ok ⟨"Windows", "PC", "10", "10.0.19041", "AMD64", "Intel64"⟩
  pythonVersion := .ok "3.11.0"
  win32Processor := .ok [⟨"Intel CPU", .str "GenuineIntel", .int 4, .int 8, .int 3600,
    .int 3400, .int 9, .str "BFEBFBFF000906EA", .int 1024, .int 8192⟩]
  win32VideoController := .ok []
  virtualMemory := .ok ⟨.int 16, .int 8, .int 8, .int 50, .int 4, .int 1, .int 25⟩
  diskPartitions := .ok []
  netIfAddrs := .ok []
  win32BIOS := .ok []
  win32BaseBoard := .ok []
  win32SoundDevice := .ok []
  sensorsBattery := .ok none
  pids := .ok 100
  bootTime := .ok "2026-01-01 00:00:00"
  usbControllerDevice := .ok []
  win32DesktopMonitor := .ok []
  win32Printer := .ok []
  win32Product := .ok []
  powercfgOutput := .ok "Power Scheme GUID: 381b4222 (Balanced)"
  localeInfo := .ok ⟨.str "en_US", .str "UTF-8", "UTC", "UTC"⟩
  uptimeSeconds := .ok 90061
  cpuLoops := 1000
  memAlloc := .ok ()
  memElapsed := "0.1234"
  tmpCreate := .ok ()
  diskWrite := .ok ()
  diskRead := .ok ()
  diskRemove := .ok ()
  diskElapsed := "0.5678"
  extCpuLoops := 500
  npSum := .ok ()
  extMemElapsed := "0.2222"
  extDiskOpen := .ok ()
  extDiskWrite := .ok ()
  extDiskRead := .ok ()
  extDiskRemove := .ok ()
  extDiskElapsed := "1.5000"
  jsonFileWrite := fun _ => .ok ()
  csvFileWrite := fun _ => .ok ()

/-- envAllOk except that platform.uname() raises. -/
def envUnameFails : Env := { envAllOk with uname := .error "WMI connection lost" }

/-- envAllOk except that the baseline memory probe allocation raises. -/
def envMemFails : Env := { envAllOk with memAlloc := .error "MemoryError" }

/-- envAllOk except that writing the baseline benchmark temp file raises. -/
def envDiskWriteFails : Env :=
  { envAllOk with diskWrite := .error "No space left on device" }

/-- envAllOk except that reading the extended benchmark temp file raises. -/
def envExtDiskReadFails : Env := { envAllOk with extDiskRead := .error "I/O error" }

/-- envAllOk except that both extended memory and extended disk probes fail. -/
def envBothExtFail : Env :=
  { envAllOk with npSum := .error "numpy failure", extDiskOpen := .error "open failure" }

/-!
### The claims -/

/-- C4: the flat tabular exporter emits one (qualified-label, value) row per
scalar field, a one-cell header row per list-valued field followed by one
sub-block per dict element whose fields gain four more spaces of label
prefix, and Item-N rows for lists of scalars; in particular the spec example
record produces exactly the six rows A,1 / B / Item 1 / C,2 / Item 2 / C,3
with the exact prefixes. -/
theorem claim_C4_flat_export :
    (∀ (k : String) (z : Value) (pref : String),
      write_dict [(k, .leaf z)] pref = [[pref ++ k, pyStr (.leaf z)]]) ∧
    (∀ (k pref : String) (items : List Record),
      write_dict [(k, .list items)] pref = [pref ++ k] :: write_items items 1 pref) ∧
    (∀ (i : Nat) (pref : String) (fields : List (String × Record)),
      write_items [.obj fields] i pref
        = ["  Item " ++ toString i] :: write_dict fields (pref ++ "    ")) ∧
    (∀ (i : Nat) (pref : String) (z : Value),
      write_items [.leaf z] i pref = [["  Item " ++ toString i ++ ": " ++ pyStr (.leaf z)]]) ∧
    write_dict
      [("A", .leaf (.int 1)),
       ("B", .list [.obj [("C", .leaf (.int 2))], .obj [("C", .leaf (.int 3))]])] ""
      = [["A", "1"], ["B"], ["  Item 1"], ["    C", "2"], ["  Item 2"], ["    C", "3"]] := by
  refine ⟨?_, ?_, ?_, ?_, ?_⟩
  · intro k z pref; simp [write_dict]
  · intro k pref items; simp [write_dict]
  · intro i pref fields; simp [write_items]
  · intro i pref z; simp [write_items]
  · simp [write_dict, write_items]
    decide

/-- C9: a dict nested directly under a dict (not inside a list) is not
flattened: it yields a single row whose value cell is the whole nested dict
rendered by str(); for example A -> x7b C: 2 x7d as one row. -/
theorem claim_C9_nested_dict_single_row :
    (∀ (k pref : String) (inner : List (String × Record)),
      write_dict [(k, .obj inner)] pref = [[pref ++ k, pyRepr (.obj inner)]]) ∧
    write_dict [("A", .obj [("C", .leaf (.int 2))])] ""
      = [["A", "\x7b\x27C\x27: 2\x7d"]] := by
  refine ⟨?_, ?_⟩
  · intro k pref inner; simp [write_dict, pyStr]
  · simp [write_dict, pyStr]
    decide

/-- C5: serializing any well-formed Fact Record (nested objects, lists and
scalars, including empty objects and empty lists) with the structured
exporter and re-parsing the output returns an equivalent record, with
nesting and field order preserved exactly. -/
theorem claim_C5_structured_roundtrip (r : Record) (h : wfR r = true) :
    json_load (json_dump r) = some r :=
  json_load_dump r h

/-- A nested record exercising empty objects and empty lists. -/
def roundtripSample : Record :=
  .obj [("A", .leaf (.int 1)),
        ("Empty Object", .obj []),
        ("Empty List", .list []),
        ("B", .list [.obj [("C", .leaf (.str "x"))], .leaf (.bool true),
                     .leaf (.int (-5))])]

theorem claim_C5_witness :
    wfR roundtripSample = true ∧
    json_load (json_dump roundtripSample) = some roundtripSample :=
  ⟨by decide, claim_C5_structured_roundtrip roundtripSample (by decide)⟩

/-- C8: both exporters are total functions of the record and the file
collaborator: the result is True exactly when the file write succeeded, and
the raised I/O error message exactly when it failed — never an uncaught
fault. -/
theorem claim_C8_exporters_never_fault :
    ∀ (data : Record) (fields : List (String × Record))
      (fw : String → Except String Unit) (fw2 : List (List String) → Except String Unit),
      ((export_json fw data = Sum.inl true ∧ fw (json_dump data) = .ok ()) ∨
        (∃ e, export_json fw data = Sum.inr e ∧ fw (json_dump data) = .error e)) ∧
      ((export_csv fw2 fields = Sum.inl true ∧ fw2 (write_dict fields "") = .ok ()) ∨
        (∃ e, export_csv fw2 fields = Sum.inr e ∧ fw2 (write_dict fields "") = .error e)) := by
  intro data fields fw fw2
  constructor
  · cases h : fw (json_dump data) with
    | ok u => cases u; exact Or.inl ⟨by simp [export_json, h], rfl⟩
    | error e => exact Or.inr ⟨e, by simp [export_json, h], rfl⟩
  · cases h : fw2 (write_dict fields "") with
    | ok u => cases u; exact Or.inl ⟨by simp [export_csv, h], rfl⟩
    | error e => exact Or.inr ⟨e, by simp [export_csv, h], rfl⟩

/-!
### Collector well-formedness -/

theorem wf_get_cpu_info (env : Env) : wellFormedB (get_cpu_info env) = true := by
  cases h : env.win32Processor with
  | error e => simp [get_cpu_info, h, wellFormedB]
  | ok l => cases l <;> simp [get_cpu_info, h, wellFormedB]

theorem wf_get_ram_info (env : Env) : wellFormedB (get_ram_info env) = true := by
  cases h : env.virtualMemory with
  | error e => simp [get_ram_info, h, wellFormedB]
  | ok vm => simp [get_ram_info, h, wellFormedB]

theorem wf_get_bios_info (env : Env) : wellFormedB (get_bios_info env) = true := by
  cases h : env.win32BIOS with
  | error e => simp [get_bios_info, h, wellFormedB]
  | ok l => cases l <;> simp [get_bios_info, h, wellFormedB]

theorem wf_get_motherboard_info (env : Env) :
    wellFormedB (get_motherboard_info env) = true := by
  cases h : env.win32BaseBoard with
  | error e => simp [get_motherboard_info, h, wellFormedB]
  | ok l => cases l <;> simp [get_motherboard_info, h, wellFormedB]

theorem wf_get_battery_info (env : Env) : wellFormedB (get_battery_info env) = true := by
  cases h : env.sensorsBattery with
  | error e => simp [get_battery_info, h, wellFormedB]
  | ok b => cases b <;> simp [get_battery_info, h, wellFormedB]

theorem wf_get_process_count (env : Env) :
    wellFormedB (get_process_count env) = true := by
  cases h : env.pids with
  | error e => simp [get_process_count, h, wellFormedB]
  | ok n => simp [get_process_count, h, wellFormedB]

theorem wf_get_boot_time (env : Env) : wellFormedB (get_boot_time env) = true := by
  cases h : env.bootTime with
  | error e => simp [get_boot_time, h, wellFormedB]
  | ok s => simp [get_boot_time, h, wellFormedB]

theorem wf_get_power_plan (env : Env) : wellFormedB (get_power_plan env) = true := by
  cases h : env.powercfgOutput with
  | error e => simp [get_power_plan, h, wellFormedB]
  | ok s => simp [get_power_plan, h, wellFormedB]

theorem wf_get_system_locale (env : Env) :
    wellFormedB (get_system_locale env) = true := by
  cases h : env.localeInfo with
  | error e => simp [get_system_locale, h, wellFormedB]
  | ok l => simp [get_system_locale, h, wellFormedB]

theorem wf_get_system_uptime (env : Env) :
    wellFormedB (get_system_uptime env) = true := by
  cases h : env.uptimeSeconds with
  | error e => simp [get_system_uptime, h, wellFormedB]
  | ok u => simp [get_system_uptime, h, wellFormedB]

/-- Outcomes that neither raise nor store a malformed record. -/
theorem stored_wf_aux {x : Record} (hx : wellFormedB x = true) :
    (∀ e, FetchOutcome.stored x ≠ .exc e) ∧
    (∀ r, FetchOutcome.stored x = .stored r → wellFormedB r = true) :=
  ⟨fun _ h => FetchOutcome.noConfusion h,
   fun r hr => by injection hr with h2; rw [← h2]; exact hx⟩

theorem tier_aux :
    (∀ e, FetchOutcome.tierStarted ≠ .exc e) ∧
    (∀ r, FetchOutcome.tierStarted = .stored r → wellFormedB r = true) :=
  ⟨fun _ h => FetchOutcome.noConfusion h, fun _ hr => FetchOutcome.noConfusion hr⟩

/-- Every baseline branch other than System Info stores a well-formed record
or starts a tier; none lets an exception escape. -/
theorem show_info_baseline_safe (env : Env) (cat : String)
    (hcat : cat ≠ "System Info") :
    (∀ e, show_info_baseline env cat ≠ .exc e) ∧
    (∀ r, show_info_baseline env cat = .stored r → wellFormedB r = true) := by
  rw [show_info_baseline, if_neg hcat]
  by_cases h2 : cat = "CPU Info"
  · rw [if_pos h2]; exact stored_wf_aux (wf_get_cpu_info env)
  rw [if_neg h2]
  by_cases h3 : cat = "GPU Info"
  · rw [if_pos h3]; exact stored_wf_aux (by simp [wellFormedB])
  rw [if_neg h3]
  by_cases h4 : cat = "RAM Info"
  · rw [if_pos h4]; exact stored_wf_aux (wf_get_ram_info env)
  rw [if_neg h4]
  by_cases h5 : cat = "Disk Info"
  · rw [if_pos h5]; exact stored_wf_aux (by simp [wellFormedB])
  rw [if_neg h5]
  by_cases h6 : cat = "Network Info"
  · rw [if_pos h6]; exact stored_wf_aux (by simp [wellFormedB])
  rw [if_neg h6]
  by_cases h7 : cat = "BIOS Info"
  · rw [if_pos h7]; exact stored_wf_aux (wf_get_bios_info env)
  rw [if_neg h7]
  by_cases h8 : cat = "Motherboard Info"
  · rw [if_pos h8]; exact stored_wf_aux (wf_get_motherboard_info env)
  rw [if_neg h8]
  by_cases h9 : cat = "Sound Devices"
  · rw [if_pos h9]; exact stored_wf_aux (by simp [wellFormedB])
  rw [if_neg h9]
  by_cases h10 : cat = "Battery Info"
  · rw [if_pos h10]; exact stored_wf_aux (wf_get_battery_info env)
  rw [if_neg h10]
  by_cases h11 : cat = "Process Count"
  · rw [if_pos h11]; exact stored_wf_aux (wf_get_process_count env)
  rw [if_neg h11]
  by_cases h12 : cat = "Boot Time"
  · rw [if_pos h12]; exact stored_wf_aux (wf_get_boot_time env)
  rw [if_neg h12]
  by_cases h13 : cat = "Benchmarks"
  · rw [if_pos h13]; exact tier_aux
  rw [if_neg h13]
  exact stored_wf_aux (by simp [wellFormedB])

/-- The same through the extended dispatch chain. -/
theorem show_info_extended_safe (env : Env) (cat : String)
    (hcat : cat ≠ "System Info") :
    (∀ e, show_info_extended env cat ≠ .exc e) ∧
    (∀ r, show_info_extended env cat = .stored r → wellFormedB r = true) := by
  rw [show_info_extended]
  by_cases g2 : cat = "USB Devices"
  · rw [if_pos g2]; exact stored_wf_aux (by simp [wellFormedB])
  rw [if_neg g2]
  by_cases g3 : cat = "Display Monitors"
  · rw [if_pos g3]; exact stored_wf_aux (by simp [wellFormedB])
  rw [if_neg g3]
  by_cases g4 : cat = "Printers"
  · rw [if_pos g4]; exact stored_wf_aux (by simp [wellFormedB])
  rw [if_neg g4]
  by_cases g5 : cat = "Installed Software"
  · rw [if_pos g5]; exact stored_wf_aux (by simp [wellFormedB])
  rw [if_neg g5]
  by_cases g6 : cat = "Power Plan"
  · rw [if_pos g6]; exact stored_wf_aux (wf_get_power_plan env)
  rw [if_neg g6]
  by_cases g7 : cat = "Locale & Timezone"
  · rw [if_pos g7]; exact stored_wf_aux (wf_get_system_locale env)
  rw [if_neg g7]
  by_cases g8 : cat = "System Uptime"
  · rw [if_pos g8]; exact stored_wf_aux (wf_get_system_uptime env)
  rw [if_neg g8]
  by_cases g9 : cat = "Extended Benchmarks"
  · rw [if_pos g9]; exact tier_aux
  rw [if_neg g9]
  exact show_info_baseline_safe env cat hcat

/-- C1 as stated is refuted: get_system_info has no try/except, so a failing
platform.uname() call escapes show_info as an uncaught exception instead of
being embedded as an Error leaf. -/
theorem claim_C1_counterexample :
    show_info_extended envUnameFails "System Info" = .exc "WMI connection lost" := by
  decide

/-- C1 amended: for every category other than System Info, both dispatch
chains never let an exception escape, and whatever record they store is a
well-formed Fact Record (an Object or a List of Objects), platform failures
having been embedded as Error leaves; the System Info collector alone
propagates platform failures. -/
theorem claim_C1_amended (env : Env) (cat : String) (hcat : cat ≠ "System Info") :
    (∀ e, show_info_baseline env cat ≠ .exc e) ∧
    (∀ e, show_info_extended env cat ≠ .exc e) ∧
    (∀ r, show_info_baseline env cat = .stored r → wellFormedB r = true) ∧
    (∀ r, show_info_extended env cat = .stored r → wellFormedB r = true) :=
  ⟨(show_info_baseline_safe env cat hcat).1,
   (show_info_extended_safe env cat hcat).1,
   (show_info_baseline_safe env cat hcat).2,
   (show_info_extended_safe env cat hcat).2⟩

theorem claim_C1_witness :
    ("CPU Info" : String) ≠ "System Info" ∧
    show_info_extended envAllOk "CPU Info" ≠ .exc "boom" :=
  ⟨by decide, (claim_C1_amended envAllOk "CPU Info" (by decide)).2.1 "boom"⟩

/-- C7: a category in neither catalog falls through both dispatch chains to
the Unknown category record — a data value, not a fault. -/
theorem claim_C7_unknown_category (env : Env) (cat : String)
    (h : cat ∉ extended_category_options) :
    show_info_baseline env cat = .stored (.obj [("Error", .leaf (.str "Unknown category"))]) ∧
    show_info_extended env cat = .stored (.obj [("Error", .leaf (.str "Unknown category"))]) := by
  have hne : ∀ s ∈ extended_category_options, cat ≠ s :=
    fun s hs heq => h (heq ▸ hs)
  have n1 : cat ≠ "System Info" := hne _ (by decide)
  have n2 : cat ≠ "CPU Info" := hne _ (by decide)
  have n3 : cat ≠ "GPU Info" := hne _ (by decide)
  have n4 : cat ≠ "RAM Info" := hne _ (by decide)
  have n5 : cat ≠ "Disk Info" := hne _ (by decide)
  have n6 : cat ≠ "Network Info" := hne _ (by decide)
  have n7 : cat ≠ "BIOS Info" := hne _ (by decide)
  have n8 : cat ≠ "Motherboard Info" := hne _ (by decide)
  have n9 : cat ≠ "Sound Devices" := hne _ (by decide)
  have n10 : cat ≠ "Battery Info" := hne _ (by decide)
  have n11 : cat ≠ "Process Count" := hne _ (by decide)
  have n12 : cat ≠ "Boot Time" := hne _ (by decide)
  have n13 : cat ≠ "Benchmarks" := hne _ (by decide)
  have n14 : cat ≠ "USB Devices" := hne _ (by decide)
  have n15 : cat ≠ "Display Monitors" := hne _ (by decide)
  have n16 : cat ≠ "Printers" := hne _ (by decide)
  have n17 : cat ≠ "Installed Software" := hne _ (by decide)
  have n18 : cat ≠ "Power Plan" := hne _ (by decide)
  have n19 : cat ≠ "Locale & Timezone" := hne _ (by decide)
  have n20 : cat ≠ "System Uptime" := hne _ (by decide)
  have n21 : cat ≠ "Extended Benchmarks" := hne _ (by decide)
  constructor
  · simp [show_info_baseline, n1, n2, n3, n4, n5, n6, n7, n8, n9, n10, n11, n12, n13]
  · simp [show_info_extended, show_info_baseline, n1, n2, n3, n4, n5, n6, n7, n8, n9,
      n10, n11, n12, n13, n14, n15, n16, n17, n18, n19, n20, n21]

theorem claim_C7_witness :
    ("nonexistent-category" : String) ∉ extended_category_options ∧
    show_info_extended envAllOk "nonexistent-category"
      = .stored (.obj [("Error", .leaf (.str "Unknown category"))]) :=
  ⟨by decide,
   (claim_C7_unknown_category envAllOk "nonexistent-category" (by decide)).2⟩

/-!
### Benchmark-tier claims -/

theorem pyDictUpdate_three (k1 k2 k3 : String) (v1 v2 v3 : Record)
    (h12 : k1 ≠ k2) (h13 : k1 ≠ k3) (h23 : k2 ≠ k3) :
    pyDictUpdate (pyDictUpdate [(k1, v1)] [(k2, v2)]) [(k3, v3)]
      = [(k1, v1), (k2, v2), (k3, v3)] := by
  simp [pyDictUpdate, insertPair, h12, h13, h23]

/-- disk_benchmark yields either the timing field with the temp file removed,
or the error field. -/
theorem disk_benchmark_cases (env : Env) (tmp : Bool) :
    (∃ s, disk_benchmark env tmp
        = (.obj [("Disk Benchmark (write/read 10MB)", .leaf (.str s))], false)) ∨
    (∃ s b, disk_benchmark env tmp
        = (.obj [("Disk Benchmark Error", .leaf (.str s))], b)) := by
  rcases h1 : env.tmpCreate with e | u
  · exact Or.inr ⟨e, tmp, by simp [disk_benchmark, h1]⟩
  · rcases h2 : env.diskWrite with e | u2
    · exact Or.inr ⟨e, true, by simp [disk_benchmark, h1, h2]⟩
    · rcases h3 : env.diskRead with e | u3
      · exact Or.inr ⟨e, true, by simp [disk_benchmark, h1, h2, h3]⟩
      · rcases h4 : env.diskRemove with e | u4
        · exact Or.inr ⟨e, true, by simp [disk_benchmark, h1, h2, h3, h4]⟩
        · exact Or.inl ⟨env.diskElapsed ++ " seconds",
            by simp [disk_benchmark, h1, h2, h3, h4]⟩

/-- C2 as stated is refuted: the baseline memory probe has no try/except, so
its exception kills the worker thread — the disk probe never runs, nothing
is merged into Session State, and no Error field reports the failure. -/
theorem claim_C2_counterexample :
    (run_benchmarks envMemFails false).written = none ∧
    (run_benchmarks envMemFails false).trace
      = [.start "cpu", .done "cpu", .start "memory"] := by
  decide

/-- C2 amended: the disk probe guards its own failure, so when the unguarded
memory probe does not raise, the completed baseline merge always has exactly
the three fields CPU count, memory elapsed, and disk elapsed or its Error
equivalent; but an exception of the memory probe aborts the tier with no
merge at all (see the counterexample). -/
theorem claim_C2_amended (env : Env) (tmp : Bool) (hmem : env.memAlloc = .ok ()) :
    ∃ merged, (run_benchmarks env tmp).written = some (.obj merged) ∧
      (merged.map Prod.fst
          = ["CPU Benchmark (loops in 3s)", "Memory Benchmark (sum bytes)",
             "Disk Benchmark (write/read 10MB)"] ∨
       merged.map Prod.fst
          = ["CPU Benchmark (loops in 3s)", "Memory Benchmark (sum bytes)",
             "Disk Benchmark Error"]) := by
  have hmb : memory_benchmark env
      = .ok (.obj [("Memory Benchmark (sum bytes)",
            .leaf (.str (env.memElapsed ++ " seconds")))]) := by
    simp [memory_benchmark, hmem]
  have hk : ("CPU Benchmark (loops in " ++ toString (3 : Nat) ++ "s)")
      = "CPU Benchmark (loops in 3s)" := by decide
  rcases disk_benchmark_cases env tmp with ⟨s, hd⟩ | ⟨s, b, hd⟩
  · have hmerge := pyDictUpdate_three "CPU Benchmark (loops in 3s)"
      "Memory Benchmark (sum bytes)" "Disk Benchmark (write/read 10MB)"
      (.leaf (.int (env.cpuLoops : Int)))
      (.leaf (.str (env.memElapsed ++ " seconds"))) (.leaf (.str s))
      (by decide) (by decide) (by decide)
    refine ⟨[("CPU Benchmark (loops in 3s)", .leaf (.int (env.cpuLoops : Int))),
             ("Memory Benchmark (sum bytes)", .leaf (.str (env.memElapsed ++ " seconds"))),
             ("Disk Benchmark (write/read 10MB)", .leaf (.str s))], ?_, Or.inl (by simp)⟩
    simp [run_benchmarks, hmb, hd, cpu_benchmark, fieldsOf, hk, hmerge]
  · have hmerge := pyDictUpdate_three "CPU Benchmark (loops in 3s)"
      "Memory Benchmark (sum bytes)" "Disk Benchmark Error"
      (.leaf (.int (env.cpuLoops : Int)))
      (.leaf (.str (env.memElapsed ++ " seconds"))) (.leaf (.str s))
      (by decide) (by decide) (by decide)
    refine ⟨[("CPU Benchmark (loops in 3s)", .leaf (.int (env.cpuLoops : Int))),
             ("Memory Benchmark (sum bytes)", .leaf (.str (env.memElapsed ++ " seconds"))),
             ("Disk Benchmark Error", .leaf (.str s))], ?_, Or.inr (by simp)⟩
    simp [run_benchmarks, hmb, hd, cpu_benchmark, fieldsOf, hk, hmerge]

theorem claim_C2_witness :
    envAllOk.memAlloc = .ok () ∧
    ∃ merged, (run_benchmarks envAllOk false).written = some (.obj merged) ∧
      (merged.map Prod.fst
          = ["CPU Benchmark (loops in 3s)", "Memory Benchmark (sum bytes)",
             "Disk Benchmark (write/read 10MB)"] ∨
       merged.map Prod.fst
          = ["CPU Benchmark (loops in 3s)", "Memory Benchmark (sum bytes)",
             "Disk Benchmark Error"]) :=
  ⟨rfl, claim_C2_amended envAllOk false rfl⟩

/-- C3 as stated is refuted: os.remove only runs at the end of the try
block, so when the write (baseline) or read (extended) raises after the
temporary file was created, the probe returns its Error field with the file
still on disk. -/
theorem claim_C3_counterexample :
    (disk_benchmark envDiskWriteFails false).1
        = .obj [("Disk Benchmark Error", .leaf (.str "No space left on device"))] ∧
    (disk_benchmark envDiskWriteFails false).2 = true ∧
    (extended_disk_benchmark envExtDiskReadFails false).1
        = .obj [("Error", .leaf (.str "Failed extended disk benchmark: I/O error"))] ∧
    (extended_disk_benchmark envExtDiskReadFails false).2 = true := by
  decide

/-- C3 amended: the temporary file is gone after a fully successful probe
run (both tiers), and the probe always returns a record (timing or Error);
but on an error path after creation the file persists — deletion is not
guaranteed on every exit path. -/
theorem claim_C3_amended (env : Env) (tmp : Bool)
    (h1 : env.tmpCreate = .ok ()) (h2 : env.diskWrite = .ok ())
    (h3 : env.diskRead = .ok ()) (h4 : env.diskRemove = .ok ())
    (h5 : env.extDiskOpen = .ok ()) (h6 : env.extDiskWrite = .ok ())
    (h7 : env.extDiskRead = .ok ()) (h8 : env.extDiskRemove = .ok ()) :
    disk_benchmark env tmp
      = (.obj [("Disk Benchmark (write/read 10MB)",
            .leaf (.str (env.diskElapsed ++ " seconds")))], false) ∧
    extended_disk_benchmark env tmp
      = (.obj [("Extended Disk Benchmark (3x 50MB write/read)",
            .leaf (.str (env.extDiskElapsed ++ " seconds")))], false) := by
  constructor
  · simp [disk_benchmark, h1, h2, h3, h4]
  · simp [extended_disk_benchmark, extDiskCycles, h5, h6, h7, h8]

theorem claim_C3_witness :
    disk_benchmark envAllOk false
      = (.obj [("Disk Benchmark (write/read 10MB)", .leaf (.str "0.5678 seconds"))], false) ∧
    extended_disk_benchmark envAllOk false
      = (.obj [("Extended Disk Benchmark (3x 50MB write/read)",
            .leaf (.str "1.5000 seconds"))], false) :=
  claim_C3_amended envAllOk false rfl rfl rfl rfl rfl rfl rfl rfl

/-- C6: within a tier the probes run strictly in the order CPU, memory,
disk (the disk probe begins only after the memory result exists), and the
merged result is written to Session State exactly once, as the last event
after all three probes complete; a trace never carries more than one write
even on the aborted path. -/
theorem claim_C6_ordering_write_once (env : Env) (tmp : Bool) :
    (((run_benchmarks env tmp).trace.filter isWriteEvent).length ≤ 1) ∧
    (((run_extended_benchmarks env tmp).trace.filter isWriteEvent).length ≤ 1) ∧
    (env.memAlloc = .ok () →
      ∃ m, (run_benchmarks env tmp).trace
          = [.start "cpu", .done "cpu", .start "memory", .done "memory",
             .start "disk", .done "disk", .write m]
        ∧ (run_benchmarks env tmp).written = some m) ∧
    (∃ m, (run_extended_benchmarks env tmp).trace
        = [.start "cpu", .done "cpu", .start "memory", .done "memory",
           .start "disk", .done "disk", .write m]
      ∧ (run_extended_benchmarks env tmp).written = some m) := by
  rcases hdb : disk_benchmark env tmp with ⟨r3, t2⟩
  rcases hedb : extended_disk_benchmark env tmp with ⟨r4, t4⟩
  refine ⟨?_, ?_, ?_, ?_⟩
  · rcases hm : memory_benchmark env with e | r2
    · simp [run_benchmarks, hm, List.filter, isWriteEvent]
    · simp [run_benchmarks, hm, hdb, List.filter, isWriteEvent]
  · simp [run_extended_benchmarks, hedb, List.filter, isWriteEvent]
  · intro hmem
    have hmb : memory_benchmark env
        = .ok (.obj [("Memory Benchmark (sum bytes)",
              .leaf (.str (env.memElapsed ++ " seconds")))]) := by
      simp [memory_benchmark, hmem]
    refine ⟨.obj (pyDictUpdate (pyDictUpdate (fieldsOf (cpu_benchmark env 3))
        (fieldsOf (.obj [("Memory Benchmark (sum bytes)",
          .leaf (.str (env.memElapsed ++ " seconds")))]))) (fieldsOf r3)), ?_, ?_⟩
    · simp [run_benchmarks, hmb, hdb]
    · simp [run_benchmarks, hmb, hdb]
  · refine ⟨.obj (pyDictUpdate (pyDictUpdate (fieldsOf (extended_cpu_benchmark env))
        (fieldsOf (extended_memory_benchmark env))) (fieldsOf r4)), ?_, ?_⟩
    · simp [run_extended_benchmarks, hedb]
    · simp [run_extended_benchmarks, hedb]

theorem claim_C6_witness :
    (((run_benchmarks envAllOk false).trace.filter isWriteEvent).length ≤ 1) ∧
    (((run_extended_benchmarks envAllOk false).trace.filter isWriteEvent).length ≤ 1) :=
  ⟨(claim_C6_ordering_write_once envAllOk false).1,
   (claim_C6_ordering_write_once envAllOk false).2.1⟩

/-- C10: the extended memory and extended disk probes both report their
failure under the same key Error, so when both fail in one run the later
dict.update overwrites the earlier entry: Session State receives only the
disk probe's message, and the merged result has two fields, not three. -/
theorem claim_C10_duplicate_error_key (env : Env) (tmp : Bool) (em ed : String)
    (hmem : env.npSum = .error em) (hdisk : env.extDiskOpen = .error ed) :
    extended_memory_benchmark env
      = .obj [("Error", .leaf (.str ("Failed extended memory benchmark: " ++ em)))] ∧
    (extended_disk_benchmark env tmp).1
      = .obj [("Error", .leaf (.str ("Failed extended disk benchmark: " ++ ed)))] ∧
    (run_extended_benchmarks env tmp).written
      = some (.obj [("Extended CPU Benchmark loops", .leaf (.int (env.extCpuLoops : Int))),
                    ("Error", .leaf (.str ("Failed extended disk benchmark: " ++ ed)))]) := by
  have hm2 : extended_memory_benchmark env
      = .obj [("Error", .leaf (.str ("Failed extended memory benchmark: " ++ em)))] := by
    simp [extended_memory_benchmark, hmem]
  have hd2 : extended_disk_benchmark env tmp
      = (.obj [("Error", .leaf (.str ("Failed extended disk benchmark: " ++ ed)))], tmp) := by
    simp [extended_disk_benchmark, extDiskCycles, hdisk]
  refine ⟨hm2, by simp [hd2], ?_⟩
  simp [run_extended_benchmarks, hd2, hm2, extended_cpu_benchmark, fieldsOf,
    pyDictUpdate, insertPair]

theorem claim_C10_witness :
    envBothExtFail.npSum = .error "numpy failure" ∧
    (run_extended_benchmarks envBothExtFail false).written
      = some (.obj [("Extended CPU Benchmark loops", .leaf (.int 500)),
                    ("Error", .leaf (.str "Failed extended disk benchmark: open failure"))]) :=
  ⟨rfl, (claim_C10_duplicate_error_key envBothExtFail false "numpy failure"
      "open failure" rfl rfl).2.2⟩

end HardwareHouse
